import Mathlib

/-!
Verification development for the connection-pool / worker engine of
multi_db_load_tester_jdbc_GLM47_v2.4.0.py.

The Python classes are shallowly embedded as Lean structures and pure
state-transition functions.  Wall-clock readings are passed explicitly as a
parameter named now; one pool operation is modelled as happening at a single
instant.  Machine floats carrying timestamps, latencies and token counts are
modelled as Nat (timestamps, where only ordering and differences matter) or
as Rat (token counts, latency samples, random draws).  Python exceptions from
the JDBC driver are modelled by oracle lists: each call that may raise is fed
the outcome it would have observed.
-/

namespace MultiDbLoad

/-- PooledConnection (source lines 760-822): wrapper around one physical
connection, carrying lifecycle timestamps.  The field valid models the
outcome that every isValid liveness probe on this physical connection would
report (the model fixes it per connection). -/
structure Conn where
  cid : Nat
  createdAt : Nat
  acquiredAt : Option Nat
  lastUsedAt : Nat
  valid : Bool
deriving DecidableEq, Repr

/-- Blueprint of a connection that jaydebeapi.connect would hand back on a
successful creation attempt: its identity and its liveness behaviour. -/
structure FreshSpec where
  cid : Nat
  valid : Bool
deriving DecidableEq, Repr

/-- Outcome oracle for one call of _create_connection_internal: entry k is
the result of creation attempt k (some spec = jaydebeapi.connect returns,
none = it raises).  A missing entry counts as a raise. -/
abbrev CreateOutcome := List (Option FreshSpec)

/-- JDBCConnectionPool state (source lines 835-899): queue of idle handles,
in-flight map (active_connections), size counters and statistics, together
with the configuration fields the pool reads back. -/
structure PoolState where
  minSize : Nat
  maxSize : Nat
  maxLifetime : Nat
  idleTimeout : Nat
  keepaliveTime : Nat
  leakThreshold : Nat
  idle : List Conn
  inflight : List Conn
  currentSize : Nat
  activeCount : Nat
  totalCreated : Nat
  totalRecycled : Nat
  totalLeakWarnings : Nat
deriving DecidableEq, Repr

/-- Constructor bookkeeping of JDBCConnectionPool.__init__ (lines 859-899)
before the warm-up call: empty queue, empty in-flight map, zero counters.
Lines 877-881: a keepalive time strictly between 0 and 30 seconds is
silently replaced by 0 (keepalive checks disabled); 0 or at least 30 is kept
as given. -/
def mkPool (minSize maxSize maxLifetime idleTimeout keepalive leakThreshold : Nat) :
    PoolState :=
  { minSize := minSize
    maxSize := maxSize
    maxLifetime := maxLifetime
    idleTimeout := idleTimeout
    keepaliveTime := if 0 < keepalive && keepalive < 30 then 0 else keepalive
    leakThreshold := leakThreshold
    idle := []
    inflight := []
    currentSize := 0
    activeCount := 0
    totalCreated := 0
    totalRecycled := 0
    totalLeakWarnings := 0 }

/-- PooledConnection.mark_acquired (lines 769-779). -/
def markAcquired (now : Nat) (c : Conn) : Conn :=
  { c with acquiredAt := some now, lastUsedAt := now }

/-- PooledConnection.mark_released (lines 781-788). -/
def markReleased (now : Nat) (c : Conn) : Conn :=
  { c with acquiredAt := none, lastUsedAt := now }

/-- JDBCConnectionPool._is_connection_expired (lines 1047-1056):
get_age_seconds() > max_lifetime_seconds.  Nat subtraction truncates at 0
exactly as a negative float age would compare below the threshold. -/
def isExpired (now : Nat) (st : PoolState) (c : Conn) : Bool :=
  decide (now - c.createdAt > st.maxLifetime)

/-- JDBCConnectionPool._close_pooled_connection (lines 1236-1251): close the
physical connection and decrement current_size, clamped at 0 (the source
writes max(0, current_size - 1); Nat subtraction is that clamp). -/
def closeConn (st : PoolState) : PoolState :=
  { st with currentSize := st.currentSize - 1 }

/-- Removal of a key from the active_connections dict (pop with a default):
returns the stored handle, if any, and the remaining map. -/
def popCid : List Conn → Nat → Option Conn × List Conn
  | [], _ => (none, [])
  | c :: rest, cid =>
    if c.cid = cid then (some c, rest)
    else
      let r := popCid rest cid
      (r.1, c :: r.2)

/-- Connection built by a successful creation attempt: created now, idle. -/
def mkFresh (now : Nat) (spec : FreshSpec) : Conn :=
  { cid := spec.cid, createdAt := now, acquiredAt := none, lastUsedAt := now,
    valid := spec.valid }

/-- Result of one _create_connection_internal call: the connection (none on
failure), the updated pool state, and the backoff sleeps performed (ms). -/
structure CreateResult where
  conn : Option Conn
  st : PoolState
  sleeps : List Nat
deriving DecidableEq, Repr

/-- JDBCConnectionPool._create_connection_internal (lines 935-1006).
The source writes a for-loop over max_creation_retries = 3 attempts with a
doubling backoff meant to run 100ms then 200ms, but the return None at line
1004 sits inside the except block, after the backoff if/else, so every
exception path returns from the function: the loop body never reaches a
second iteration.  Faithfully, therefore, only attempts entry 0 is ever
consulted.  Control flow of the single iteration that runs:
line 954: if current_size >= max_size, return None before any attempt;
line 956: current_size += 1 before the attempt;
line 980-983: on success total_created += 1 and the wrapped handle returns;
line 987-988: on exception current_size -= 1;
line 991-998: not being the last attempt, sleep creation_backoff_ms = 100ms
and double the backoff; line 1004: return None (the misplaced return). -/
def createInternal (now : Nat) (st : PoolState) (attempts : CreateOutcome) :
    CreateResult :=
  if st.currentSize ≥ st.maxSize then
    { conn := none, st := st, sleeps := [] }
  else
    let st1 := { st with currentSize := st.currentSize + 1 }
    match attempts.getD 0 none with
    | some spec =>
        { conn := some (mkFresh now spec)
          st := { st1 with totalCreated := st1.totalCreated + 1 }
          sleeps := [] }
    | none =>
        { conn := none
          st := { st1 with currentSize := st1.currentSize - 1 }
          sleeps := [100] }

/-! JDBCConnectionPool.acquire (lines 1288-1408). -/

/-- Result of one acquire call: the handle handed to the caller (none on
failure), whether it came from the final blocking wait at lines 1386-1408
that runs after the retry budget is exhausted, and the updated pool. -/
structure AcqResult where
  conn : Option Conn
  fromFallback : Bool
  st : PoolState
deriving DecidableEq, Repr

/-- Success bookkeeping shared by all return paths of acquire (lines
1338-1349, 1367-1373, 1392-1400): mark_acquired, register the handle in
active_connections, increment active_count, hand the connection back. -/
def acquireReturn (now : Nat) (st : PoolState) (c : Conn) (fallback : Bool) :
    AcqResult :=
  let c1 := markAcquired now c
  { conn := some c1
    fromFallback := fallback
    st := { st with inflight := st.inflight ++ [c1]
                    activeCount := st.activeCount + 1 } }

/-- Retry loop of acquire (lines 1310-1384) followed by the final blocking
wait (lines 1386-1408).  The oracle list feeds one CreateOutcome to each
_create_connection_internal call the loop makes.  The loop terminates
because every iteration either consumes one idle handle or increments
retry_count; fuel is a strict upper bound on that measure, (3 - retryCount)
+ idle.length, so the fuel-exhausted branch is never taken when the
function is entered through acquireConn below. -/
def acquireGo (now : Nat) : Nat → PoolState → List CreateOutcome → Nat → Nat →
    AcqResult
  | 0, st, _, _, _ => { conn := none, fromFallback := false, st := st }
  | fuel + 1, st, oracle, retryCount, backoffMs =>
    if retryCount < 3 then
      match st.idle with
      | c :: rest =>
        -- line 1320: the queue is non-empty, pool.get returns its head
        let st1 := { st with idle := rest }
        if isExpired now st1 c then
          -- lines 1323-1334: destroy, count a recycle, create a replacement
          let st2 := closeConn st1
          let st3 := { st2 with totalRecycled := st2.totalRecycled + 1 }
          let r := createInternal now st3 (oracle.headD [])
          match r.conn with
          | none =>
              -- lines 1329-1334: creation failed, back off and retry
              acquireGo now fuel r.st oracle.tail (retryCount + 1)
                (min (backoffMs * 2) 5000)
          | some c2 =>
              -- lines 1336-1354: validate the replacement
              if c2.valid then acquireReturn now r.st c2 false
              else acquireGo now fuel (closeConn r.st) oracle.tail
                retryCount backoffMs
        else
          if c.valid then acquireReturn now st1 c false
          else
            -- lines 1350-1354: invalid handle destroyed, loop again without
            -- touching retry_count or the backoff
            acquireGo now fuel (closeConn st1) oracle retryCount backoffMs
      | [] =>
        -- lines 1356-1384: queue.Empty branch
        if st.currentSize < st.maxSize then
          let r := createInternal now st (oracle.headD [])
          match r.conn with
          | some c => acquireReturn now r.st c false
          | none =>
              acquireGo now fuel r.st oracle.tail (retryCount + 1)
                (if retryCount < 2 then min (backoffMs * 2) 5000 else backoffMs)
        else
          acquireGo now fuel st oracle (retryCount + 1)
            (if retryCount < 2 then min (backoffMs * 2) 5000 else backoffMs)
    else
      -- lines 1386-1408: final blocking wait; whatever handle the queue
      -- yields is returned with no expiry or liveness check
      match st.idle with
      | c :: rest => acquireReturn now { st with idle := rest } c true
      | [] => { conn := none, fromFallback := false, st := st }

/-- JDBCConnectionPool.acquire entry point: retry_count = 0, backoff 100ms
(lines 1305-1307).  The fuel bound 4 + idle.length strictly dominates the
loop measure (3 - retryCount) + idle.length. -/
def acquireConn (now : Nat) (st : PoolState) (oracle : List CreateOutcome) :
    AcqResult :=
  acquireGo now (4 + st.idle.length) st oracle 0 100

/-! JDBCConnectionPool.release (lines 1410-1466), discard (lines 1468-1494),
close_all (lines 1496-1526) and _warmup_pool (lines 914-933). -/

/-- JDBCConnectionPool.release.  wrapperValid models what
_validate_connection would report on a connection released without a
matching active_connections entry (line 1434 wraps it afresh). -/
def releaseConn (now : Nat) (st : PoolState) (cid : Nat) (wrapperValid : Bool)
    (attempts : CreateOutcome) : PoolState :=
  let p := popCid st.inflight cid
  let st1 := { st with inflight := p.2, activeCount := st.activeCount - 1 }
  let pooled :=
    match p.1 with
    | some c => c
    | none =>
        { cid := cid, createdAt := now, acquiredAt := none, lastUsedAt := now,
          valid := wrapperValid }
  let pooled := markReleased now pooled
  if isExpired now st1 pooled then
    -- lines 1440-1451: destroy, count a recycle, create a replacement and
    -- enqueue it; a full queue raises queue.Full, caught at line 1464 where
    -- _close_pooled_connection runs once more
    let st2 := closeConn st1
    let st3 := { st2 with totalRecycled := st2.totalRecycled + 1 }
    let r := createInternal now st3 attempts
    match r.conn with
    | some c2 =>
        if r.st.idle.length < r.st.maxSize then
          { r.st with idle := r.st.idle ++ [c2] }
        else closeConn r.st
    | none => r.st
  else if pooled.valid then
    -- lines 1454-1459: requeue while qsize < max_size
    if st1.idle.length < st1.maxSize then
      { st1 with idle := st1.idle ++ [pooled] }
    else closeConn st1
  else closeConn st1

/-- JDBCConnectionPool.discard: drop from the in-flight map, decrement
active_count and current_size (both clamped at 0), close the connection. -/
def discardConn (st : PoolState) (cid : Nat) : PoolState :=
  let p := popCid st.inflight cid
  { st with inflight := p.2
            activeCount := st.activeCount - 1
            currentSize := st.currentSize - 1 }

/-- JDBCConnectionPool.close_all: drain the queue closing each idle handle
(decrementing current_size each time), then close the raw in-flight
connections and clear the map; active_count and the current_size share of
the in-flight handles are left as they are (lines 1509-1524). -/
def closeAllConns (st : PoolState) : PoolState :=
  let st1 := st.idle.foldl (fun s _ => closeConn s) st
  { st1 with idle := [], inflight := [] }

/-- JDBCConnectionPool._warmup_pool: min_size creation attempts, each
successful handle going into the queue (lines 922-927). -/
def warmupPool (now : Nat) (st : PoolState) (oracle : List CreateOutcome) :
    PoolState :=
  (List.range st.minSize).foldl
    (fun s i =>
      let r := createInternal now s (oracle.getD i [])
      match r.conn with
      | some c => { r.st with idle := r.st.idle ++ [c] }
      | none => r.st)
    st

/-! Health-check sweep: _check_idle_connections (lines 1092-1203) and
_detect_connection_leaks (lines 1205-1234), run in that order by
_health_check_loop (lines 1087-1088). -/

/-- Decision taken for one drained idle handle by the check 1-4 cascade of
_check_idle_connections.  The two keepalive outcomes are exactly the cases
in which the keepalive liveness validation of check 3 ran
(keepalive_checked = True at line 1153). -/
inductive IdleAction where
  | recycleExpired
  | dropIdle
  | keepaliveFail
  | keepRefreshed
  | keepValid
  | closeInvalid
deriving DecidableEq, Repr

/-- Per-handle cascade of _check_idle_connections (lines 1121-1172):
check 1 max-lifetime expiry; check 2 idle timeout, allowed only while
current_size > min_size; check 3 keepalive validation once idle longer than
a positive keepalive time; check 4 final liveness validation, skipped when
check 3 already validated. -/
def processIdleConn (now : Nat) (st : PoolState) (c : Conn) : IdleAction :=
  if isExpired now st c then .recycleExpired
  else
    let idleSec : Option Nat :=
      match c.acquiredAt with
      | some _ => none
      | none => some (now - c.lastUsedAt)
    let dropIt :=
      match idleSec with
      | none => false
      | some i =>
          decide (0 < st.idleTimeout) && decide (st.minSize < st.currentSize)
            && decide (st.idleTimeout < i)
    if dropIt then .dropIdle
    else
      let kaChecked :=
        match idleSec with
        | none => false
        | some i => decide (0 < st.keepaliveTime) && decide (st.keepaliveTime < i)
      if kaChecked then
        if c.valid then .keepRefreshed else .keepaliveFail
      else if c.valid then .keepValid else .closeInvalid

/-- Drain loop of _check_idle_connections (lines 1111-1172): every idle
handle is popped and processed; survivors and replacement creations collect
in valid_connections (acc).  Returns the state, the survivor list and the
unconsumed creation oracle. -/
def sweepDrain (now : Nat) :
    List Conn → PoolState → List Conn → List CreateOutcome →
      PoolState × List Conn × List CreateOutcome
  | [], st, acc, oracle => (st, acc, oracle)
  | c :: rest, st, acc, oracle =>
    match processIdleConn now st c with
    | .recycleExpired =>
        let st1 := closeConn st
        let st2 := { st1 with totalRecycled := st1.totalRecycled + 1 }
        let r := createInternal now st2 (oracle.headD [])
        let acc1 := match r.conn with | some nc => acc ++ [nc] | none => acc
        sweepDrain now rest r.st acc1 oracle.tail
    | .dropIdle => sweepDrain now rest (closeConn st) acc oracle
    | .keepaliveFail =>
        let r := createInternal now (closeConn st) (oracle.headD [])
        let acc1 := match r.conn with | some nc => acc ++ [nc] | none => acc
        sweepDrain now rest r.st acc1 oracle.tail
    | .keepRefreshed =>
        sweepDrain now rest st (acc ++ [{ c with lastUsedAt := now }]) oracle
    | .keepValid => sweepDrain now rest st (acc ++ [c]) oracle
    | .closeInvalid => sweepDrain now rest (closeConn st) acc oracle

/-- Requeue loop of the finally block (lines 1174-1181): put_nowait each
survivor; a full queue closes the handle instead. -/
def putBackIdle : List Conn → PoolState → PoolState
  | [], st => st
  | c :: rest, st =>
    if st.idle.length < st.maxSize then
      putBackIdle rest { st with idle := st.idle ++ [c] }
    else putBackIdle rest (closeConn st)

/-- Top-up loop (lines 1183-1199): while current_size < min_size, create a
handle and enqueue it; stop on creation failure or a full queue. -/
def topUp (now : Nat) : List CreateOutcome → PoolState → PoolState
  | oracle, st =>
    if st.currentSize ≥ st.minSize then st
    else
      match oracle with
      | [] => (createInternal now st []).st
      | o :: rest =>
        let r := createInternal now st o
        match r.conn with
        | none => r.st
        | some c =>
            if r.st.idle.length < r.st.maxSize then
              topUp now rest { r.st with idle := r.st.idle ++ [c] }
            else closeConn r.st

/-- JDBCConnectionPool._check_idle_connections, assembled from the three
loops above.  The oracle feeds the replacement creations of the drain loop
first and the top-up loop afterwards. -/
def checkIdleConns (now : Nat) (st : PoolState) (oracle : List CreateOutcome) :
    PoolState :=
  let d := sweepDrain now st.idle { st with idle := [] } [] oracle
  topUp now d.2.2 (putBackIdle d.2.1 d.1)

/-- Leak predicate of _detect_connection_leaks (lines 1216-1225):
get_acquired_duration_seconds() is truthy (not None, not 0) and exceeds the
threshold. -/
def isLeaked (now threshold : Nat) (c : Conn) : Bool :=
  match c.acquiredAt with
  | none => false
  | some t => decide (now - t ≠ 0) && decide (threshold < now - t)

/-- JDBCConnectionPool._detect_connection_leaks: one warning is counted per
leaked in-flight handle; nothing else changes, in particular the in-flight
map is left intact. -/
def detectLeaks (now : Nat) (st : PoolState) : PoolState :=
  { st with totalLeakWarnings :=
      st.totalLeakWarnings + (st.inflight.filter (isLeaked now st.leakThreshold)).length }

/-- One cycle of _health_check_loop: _check_idle_connections then
_detect_connection_leaks (lines 1087-1088). -/
def healthSweep (now : Nat) (st : PoolState) (oracle : List CreateOutcome) :
    PoolState :=
  detectLeaks now (checkIdleConns now st oracle)

/-! Pool operation traces.  A trace is a list of calls into the pool API;
each call carries the instant it runs at and the oracle data for the driver
calls it makes. -/

/-- One pool API call. -/
inductive PoolOp where
  | warmupOp (now : Nat) (oracle : List CreateOutcome)
  | acquireOp (now : Nat) (oracle : List CreateOutcome)
  | releaseOp (now : Nat) (cid : Nat) (wrapperValid : Bool) (attempts : CreateOutcome)
  | discardOp (cid : Nat)
  | sweepOp (now : Nat) (oracle : List CreateOutcome)
  | closeAllOp
deriving DecidableEq, Repr

/-- Effect of one pool API call on the pool state (acquire's return value is
dropped; only the bookkeeping matters here). -/
def stepOp (st : PoolState) : PoolOp → PoolState
  | .warmupOp now oracle => warmupPool now st oracle
  | .acquireOp now oracle => (acquireConn now st oracle).st
  | .releaseOp now cid wv attempts => releaseConn now st cid wv attempts
  | .discardOp cid => discardConn st cid
  | .sweepOp now oracle => healthSweep now st oracle
  | .closeAllOp => closeAllConns st

/-- Run a trace of pool API calls. -/
def runPool (st : PoolState) (ops : List PoolOp) : PoolState :=
  ops.foldl stepOp st

/-- Well-formed use of one call: release and discard are applied to a handle
the caller actually holds, i.e. one registered in the in-flight map, as the
data model prescribes (every handle is idle, in-flight or destroyed).  All
other calls are unconstrained. -/
def opWf (st : PoolState) : PoolOp → Bool
  | .releaseOp _ cid _ _ => st.inflight.any (fun c => c.cid = cid)
  | .discardOp cid => st.inflight.any (fun c => c.cid = cid)
  | _ => true

/-- Well-formed trace: every call is well formed in the state it runs in. -/
def traceWf : PoolState → List PoolOp → Bool
  | _, [] => true
  | st, op :: rest => opWf st op && traceWf (stepOp st op) rest

/-! RateLimiter (source lines 496-551): token bucket. -/

/-- RateLimiter state: target_tps, tokens (a float, modelled as Rat),
max_tokens = target_tps * 2, enabled when target_tps > 0. -/
structure RateLimiter where
  targetTps : Int
  tokens : ℚ
  maxTokens : Int
  enabled : Bool
deriving DecidableEq, Repr

/-- RateLimiter.__init__ (lines 499-514). -/
def mkRateLimiter (targetTps : Int) : RateLimiter :=
  { targetTps := targetTps
    tokens := (targetTps : ℚ)
    maxTokens := targetTps * 2
    enabled := decide (0 < targetTps) }

/-- One pass through the locked section of RateLimiter.acquire (lines
534-544): refill by elapsed * target_tps capped at max_tokens, then consume
one token if at least one is available.  Returns whether a token was taken.
elapsed is now - last_refill, nonnegative while the clock is monotone. -/
def rlAttempt (elapsed : ℚ) (rl : RateLimiter) : Bool × RateLimiter :=
  let refilled := min (rl.maxTokens : ℚ) (rl.tokens + elapsed * (rl.targetTps : ℚ))
  if 1 ≤ refilled then (true, { rl with tokens := refilled - 1 })
  else (false, { rl with tokens := refilled })

/-- Run the limiter through a sequence of acquire-loop passes, one per
observed elapsed interval. -/
def rlRun (rl : RateLimiter) (es : List ℚ) : RateLimiter :=
  es.foldl (fun s e => (rlAttempt e s).2) rl

/-! PerformanceCounter (source lines 193-486): transaction counters and the
warmup partition.  Timestamps are Rat, matching float time.time() values. -/

/-- Warmup-relevant slice of the PerformanceCounter state. -/
structure PerfCounter where
  totalTransactions : Nat
  postWarmupTransactions : Nat
  warmupEndTime : Option ℚ
  postWarmupStartTime : Option ℚ
deriving DecidableEq, Repr

/-- Freshly constructed counter (lines 202-216). -/
def mkPerfCounter : PerfCounter :=
  { totalTransactions := 0
    postWarmupTransactions := 0
    warmupEndTime := none
    postWarmupStartTime := none }

/-- PerformanceCounter.record_transaction (lines 255-266): the raw total
always increments; the post-warmup counter increments only when the line
263 guard `if self.warmup_end_time and current_time >= self.warmup_end_time`
passes — which needs warmup_end_time to be set, truthy (nonzero) and not in
the future. -/
def recordTransaction (t : ℚ) (c : PerfCounter) : PerfCounter :=
  let c1 := { c with totalTransactions := c.totalTransactions + 1 }
  match c.warmupEndTime with
  | none => c1
  | some w =>
    if w ≠ 0 ∧ w ≤ t then
      { c1 with
        postWarmupStartTime :=
          match c1.postWarmupStartTime with
          | none => some t
          | some s => some s
        postWarmupTransactions := c1.postWarmupTransactions + 1 }
    else c1

/-- Post-warmup TPS of PerformanceCounter.get_stats (lines 466-470): zero
until post_warmup_start_time is truthy, else post_warmup_transactions over
the elapsed time since it (guarded against a nonpositive denominator). -/
def postWarmupTps (nowT : ℚ) (c : PerfCounter) : ℚ :=
  match c.postWarmupStartTime with
  | none => 0
  | some s =>
      if s ≠ 0 then
        if 0 < nowT - s then (c.postWarmupTransactions : ℚ) / (nowT - s) else 0
      else 0

/-! Latency statistics (source lines 354-374).  Python sorted() produces the
ascending ordering of the sample buffer; the model uses insertionSort, which
yields the same list (the sorted permutation of a list of rationals is
unique).  Python indexes with int(n * 0.50), int(n * 0.95), int(n * 0.99);
for every buffer size the deque cap of 10000 admits, those float products
floor to n * 50 / 100, n * 95 / 100 and n * 99 / 100. -/

/-- Result record of get_latency_stats. -/
structure LatencyStats where
  avg : ℚ
  p50 : ℚ
  p95 : ℚ
  p99 : ℚ
  minL : ℚ
  maxL : ℚ
deriving DecidableEq, Repr

/-- PerformanceCounter.get_latency_stats: an empty buffer reports all zeros;
otherwise percentiles are read from the sorted buffer, with p95 falling back
to the last (largest) element when n ≤ 20 and p99 when n ≤ 100. -/
def getLatencyStats (l : List ℚ) : LatencyStats :=
  match l with
  | [] => { avg := 0, p50 := 0, p95 := 0, p99 := 0, minL := 0, maxL := 0 }
  | _ :: _ =>
    let sortedL := l.insertionSort (· ≤ ·)
    let n := l.length
    { avg := sortedL.sum / (n : ℚ)
      p50 := sortedL.getD (n * 50 / 100) 0
      p95 := if 20 < n then sortedL.getD (n * 95 / 100) 0 else sortedL.getD (n - 1) 0
      p99 := if 100 < n then sortedL.getD (n * 99 / 100) 0 else sortedL.getD (n - 1) 0
      minL := sortedL.getD 0 0
      maxL := sortedL.getD (n - 1) 0 }

/-! Mixed-mode dispatch (source lines 4059-4085). -/

/-- The four operations mixed mode dispatches to. -/
inductive MixedOp where
  | insertK
  | selectK
  | updateK
  | deleteK
deriving DecidableEq, Repr

/-- LoadTestWorker.execute_mixed: one uniform draw r from [0, 1), then the
fixed threshold cascade 0.60 / 0.80 / 0.95. -/
def executeMixed (r : ℚ) : MixedOp :=
  if r < 60 / 100 then .insertK
  else if r < 80 / 100 then .selectK
  else if r < 95 / 100 then .updateK
  else .deleteK

/-! Worker loop (source lines 3683-3802 and 4173-4306): acquisition and
operation failure handling with the shared consecutive-error counter and
exponential backoff. -/

/-- Worker-visible state: whether a connection is held, the consecutive
error count, the current backoff (ms), the connection_recreates counter of
the global PerformanceCounter, the number of discard_connection calls the
worker issued, and the log of sleeps performed (ms). -/
structure WorkerState where
  connHeld : Bool
  consecutiveErrors : Nat
  backoffMs : Nat
  recreates : Nat
  discards : Nat
  sleeps : List Nat
deriving DecidableEq, Repr

/-- Worker state at the top of LoadTestWorker.run (lines 4189-4190, with
current_backoff_ms = 100 from __init__ line 3726). -/
def mkWorkerState : WorkerState :=
  { connHeld := false, consecutiveErrors := 0, backoffMs := 100,
    recreates := 0, discards := 0, sleeps := [] }

/-- LoadTestWorker._get_valid_connection (lines 3772-3798).  results entry k
is what db_adapter.get_connection returned on call k: none for no
connection, some v for a connection whose validity check reports v.  Three
guarded tries run first (discarding invalid handles, counting a recreate for
each, sleeping the current backoff after the first two), then line 3798
returns a final unguarded get_connection result. -/
def gvcLoop (results : List (Option Bool)) :
    List Nat → Nat → Nat → Nat → List Nat → Bool × Nat × Nat × Nat × List Nat
  | [], backoff, recs, discs, sleeps =>
    -- line 3798: the raw result of the last get_connection call; a handle
    -- is held iff it is not None, valid or not
    ((results.getD 3 none).isSome, backoff, recs, discs, sleeps)
  | retry :: rest, backoff, recs, discs, sleeps =>
    match results.getD retry none with
    | some true => (true, 100, recs, discs, sleeps)
    | r =>
      let recs1 := if r.isSome then recs + 1 else recs
      let discs1 := if r.isSome then discs + 1 else discs
      if retry < 2 then
        gvcLoop results rest (min (backoff * 2) 5000) recs1 discs1
          (sleeps ++ [backoff])
      else gvcLoop results rest backoff recs1 discs1 sleeps

/-- Entry point of _get_valid_connection: the for-loop runs retry = 0, 1, 2
and line 3798 finishes with the unguarded fourth call. -/
def getValidConnection (backoffMs : Nat) (results : List (Option Bool)) :
    Bool × Nat × Nat × Nat × List Nat :=
  gvcLoop results [0, 1, 2] backoffMs 0 0 []

/-- Operation-result handling of the worker loop (lines 4271-4288): failure
increments consecutive_errors and, from the second consecutive error on,
discards the held connection, counts a connection recreate, sleeps the
current backoff and doubles it capped at MAX_BACKOFF_MS = 5000; success
resets the error count and the backoff. -/
def opResultHandle (st : WorkerState) (success : Bool) : WorkerState :=
  if success then { st with consecutiveErrors := 0, backoffMs := 100 }
  else
    let st1 := { st with consecutiveErrors := st.consecutiveErrors + 1 }
    if st1.consecutiveErrors ≥ 2 then
      { st1 with connHeld := false
                 discards := st1.discards + 1
                 recreates := st1.recreates + 1
                 sleeps := st1.sleeps ++ [st1.backoffMs]
                 backoffMs := min (st1.backoffMs * 2) 5000 }
    else st1

/-- One iteration of the worker loop along the claim-relevant paths. -/
inductive WorkerEvent where
  /-- connection is None (lines 4204-4235): run _get_valid_connection with
  the given oracle; on success the same iteration proceeds to the mode
  dispatch, whose outcome is opSuccess. -/
  | acqStep (results : List (Option Bool)) (opSuccess : Bool)
  /-- connection is held and passes the validity check (lines 4236-4238):
  the iteration goes straight to the mode dispatch. -/
  | heldStep (opSuccess : Bool)
deriving DecidableEq, Repr

/-- Effect of one loop iteration on the worker state (lines 4202-4288). -/
def workerStep (st : WorkerState) : WorkerEvent → WorkerState
  | .heldStep success => opResultHandle st success
  | .acqStep results success =>
    let g := getValidConnection st.backoffMs results
    let st1 := { st with backoffMs := g.2.1
                         recreates := st.recreates + g.2.2.1
                         discards := st.discards + g.2.2.2.1
                         sleeps := st.sleeps ++ g.2.2.2.2 }
    if g.1 then
      -- lines 4216-4219: acquisition success resets the error count and the
      -- backoff, then the iteration falls through to the dispatch
      opResultHandle
        { st1 with connHeld := true, consecutiveErrors := 0, backoffMs := 100 }
        success
    else
      -- lines 4220-4235: acquisition failure; no discard and no recreate
      -- counting happen here
      let st2 := { st1 with consecutiveErrors := st1.consecutiveErrors + 1 }
      if st2.consecutiveErrors ≥ 2 then
        { st2 with sleeps := st2.sleeps ++ [st2.backoffMs]
                   backoffMs := min (st2.backoffMs * 2) 5000 }
      else { st2 with sleeps := st2.sleeps ++ [1000] }

/-! Concrete states used to exercise the theorems on explicit inputs. -/

/-- Pool holding one leaked in-flight handle: acquired at time 0, leak
threshold 5 seconds. -/
def leakPoolW : PoolState :=
  { mkPool 1 4 100 100 0 5 with
      inflight := [⟨1, 0, some 0, 0, true⟩]
      activeCount := 1
      currentSize := 1 }

/-- Pool with one fresh valid idle handle (created at time 0), max lifetime
50 seconds. -/
def agePoolW : PoolState :=
  { mkPool 1 4 50 100 0 60 with
      idle := [⟨1, 0, none, 0, true⟩]
      currentSize := 1 }

/-- Full pool whose whole queue has expired (age 100 against a 10-second max
lifetime): drives acquire into its final blocking wait. -/
def expiredPoolC : PoolState :=
  { mkPool 0 4 10 100 0 60 with
      idle := [⟨1, 0, none, 0, true⟩, ⟨2, 0, none, 0, true⟩,
               ⟨3, 0, none, 0, true⟩, ⟨4, 0, none, 0, true⟩]
      currentSize := 4 }

/-- Well-formed trace exercising every pool operation: warm-up, acquire,
release, sweep, acquire, discard, close_all. -/
def traceW : List PoolOp :=
  [.warmupOp 0 [[some ⟨1, true⟩], [some ⟨2, true⟩]],
   .acquireOp 1 [],
   .releaseOp 2 1 true [],
   .sweepOp 3 [],
   .acquireOp 4 [],
   .discardOp 2,
   .closeAllOp]

/-- Counter configured with the degenerate warmup boundary 0 (a falsy float
in the source). -/
def c4ZeroBoundary : PerfCounter :=
  { totalTransactions := 0
    postWarmupTransactions := 0
    warmupEndTime := some 0
    postWarmupStartTime := none }

/-- Counter with a warmup boundary at time 10. -/
def c4BoundaryTen : PerfCounter :=
  { totalTransactions := 0
    postWarmupTransactions := 0
    warmupEndTime := some 10
    postWarmupStartTime := none }

/-! Bookkeeping invariant of the pool and its preservation lemmas. -/

/-- Counting invariant tying the counters to the containers: the acquired
count plus the queued handles never exceeds current_size, current_size never
exceeds max_size, and the in-flight map never outgrows active_count. -/
def PoolInv (st : PoolState) : Prop :=
  st.activeCount + st.idle.length ≤ st.currentSize ∧
  st.currentSize ≤ st.maxSize ∧
  st.inflight.length ≤ st.activeCount

@[simp] lemma closeConn_idle (st : PoolState) : (closeConn st).idle = st.idle := rfl

@[simp] lemma closeConn_inflight (st : PoolState) : (closeConn st).inflight = st.inflight := rfl

@[simp] lemma closeConn_activeCount (st : PoolState) :
    (closeConn st).activeCount = st.activeCount := rfl

@[simp] lemma closeConn_currentSize (st : PoolState) :
    (closeConn st).currentSize = st.currentSize - 1 := rfl

@[simp] lemma closeConn_minSize (st : PoolState) : (closeConn st).minSize = st.minSize := rfl

@[simp] lemma closeConn_maxSize (st : PoolState) : (closeConn st).maxSize = st.maxSize := rfl

@[simp] lemma closeConn_maxLifetime (st : PoolState) :
    (closeConn st).maxLifetime = st.maxLifetime := rfl

@[simp] lemma closeConn_idleTimeout (st : PoolState) :
    (closeConn st).idleTimeout = st.idleTimeout := rfl

@[simp] lemma closeConn_keepalive (st : PoolState) :
    (closeConn st).keepaliveTime = st.keepaliveTime := rfl

@[simp] lemma closeConn_leakThreshold (st : PoolState) :
    (closeConn st).leakThreshold = st.leakThreshold := rfl

@[simp] lemma closeConn_leakWarnings (st : PoolState) :
    (closeConn st).totalLeakWarnings = st.totalLeakWarnings := rfl

@[simp] lemma closeConn_totalCreated (st : PoolState) :
    (closeConn st).totalCreated = st.totalCreated := rfl

@[simp] lemma closeConn_totalRecycled (st : PoolState) :
    (closeConn st).totalRecycled = st.totalRecycled := rfl

@[simp] lemma createInternal_st_idle (now : Nat) (st : PoolState) (a : CreateOutcome) :
    (createInternal now st a).st.idle = st.idle := by
  unfold createInternal; split; · rfl
  cases a.getD 0 none <;> rfl

@[simp] lemma createInternal_st_inflight (now : Nat) (st : PoolState) (a : CreateOutcome) :
    (createInternal now st a).st.inflight = st.inflight := by
  unfold createInternal; split; · rfl
  cases a.getD 0 none <;> rfl

@[simp] lemma createInternal_st_activeCount (now : Nat) (st : PoolState) (a : CreateOutcome) :
    (createInternal now st a).st.activeCount = st.activeCount := by
  unfold createInternal; split; · rfl
  cases a.getD 0 none <;> rfl

@[simp] lemma createInternal_st_minSize (now : Nat) (st : PoolState) (a : CreateOutcome) :
    (createInternal now st a).st.minSize = st.minSize := by
  unfold createInternal; split; · rfl
  cases a.getD 0 none <;> rfl

@[simp] lemma createInternal_st_maxSize (now : Nat) (st : PoolState) (a : CreateOutcome) :
    (createInternal now st a).st.maxSize = st.maxSize := by
  unfold createInternal; split; · rfl
  cases a.getD 0 none <;> rfl

@[simp] lemma createInternal_st_maxLifetime (now : Nat) (st : PoolState) (a : CreateOutcome) :
    (createInternal now st a).st.maxLifetime = st.maxLifetime := by
  unfold createInternal; split; · rfl
  cases a.getD 0 none <;> rfl

@[simp] lemma createInternal_st_idleTimeout (now : Nat) (st : PoolState) (a : CreateOutcome) :
    (createInternal now st a).st.idleTimeout = st.idleTimeout := by
  unfold createInternal; split; · rfl
  cases a.getD 0 none <;> rfl

@[simp] lemma createInternal_st_keepalive (now : Nat) (st : PoolState) (a : CreateOutcome) :
    (createInternal now st a).st.keepaliveTime = st.keepaliveTime := by
  unfold createInternal; split; · rfl
  cases a.getD 0 none <;> rfl

@[simp] lemma createInternal_st_leakThreshold (now : Nat) (st : PoolState) (a : CreateOutcome) :
    (createInternal now st a).st.leakThreshold = st.leakThreshold := by
  unfold createInternal; split; · rfl
  cases a.getD 0 none <;> rfl

@[simp] lemma createInternal_st_leakWarnings (now : Nat) (st : PoolState) (a : CreateOutcome) :
    (createInternal now st a).st.totalLeakWarnings = st.totalLeakWarnings := by
  unfold createInternal; split; · rfl
  cases a.getD 0 none <;> rfl

@[simp] lemma createInternal_st_totalRecycled (now : Nat) (st : PoolState) (a : CreateOutcome) :
    (createInternal now st a).st.totalRecycled = st.totalRecycled := by
  unfold createInternal; split; · rfl
  cases a.getD 0 none <;> rfl

lemma createInternal_conn_none {now : Nat} {st : PoolState} {a : CreateOutcome}
    (h : (createInternal now st a).conn = none) :
    (createInternal now st a).st.currentSize = st.currentSize := by
  unfold createInternal at h ⊢
  split at h
  · rename_i hge
    simp [hge]
  · rename_i hge
    revert h
    cases hg : a.getD 0 none <;> simp [hge, hg]

lemma createInternal_conn_some {now : Nat} {st : PoolState} {a : CreateOutcome} {c : Conn}
    (h : (createInternal now st a).conn = some c) :
    (createInternal now st a).st.currentSize = st.currentSize + 1 ∧
    st.currentSize < st.maxSize ∧ c.createdAt = now ∧ c.acquiredAt = none := by
  unfold createInternal at h ⊢
  split at h
  · simp at h
  · rename_i hge
    revert h
    cases hg : a.getD 0 none with
    | none => simp
    | some spec =>
        intro h
        simp only [Option.some.injEq] at h
        simp [hge, hg, ← h, mkFresh]
        omega

lemma createInternal_inv (now : Nat) (st : PoolState) (a : CreateOutcome)
    (h : PoolInv st) : PoolInv (createInternal now st a).st := by
  obtain ⟨hA, hB, hC⟩ := h
  rcases hc : (createInternal now st a).conn with _ | c
  · have hsz := createInternal_conn_none hc
    refine ⟨?_, ?_, ?_⟩ <;> simp [hsz] <;> omega
  · have hsz := createInternal_conn_some hc
    refine ⟨?_, ?_, ?_⟩ <;> simp [hsz.1] <;> omega

lemma acquireReturn_state (now : Nat) (st : PoolState) (c : Conn) (fb : Bool) :
    (acquireReturn now st c fb).st.idle = st.idle ∧
    (acquireReturn now st c fb).st.inflight.length = st.inflight.length + 1 ∧
    (acquireReturn now st c fb).st.activeCount = st.activeCount + 1 ∧
    (acquireReturn now st c fb).st.currentSize = st.currentSize ∧
    (acquireReturn now st c fb).st.maxSize = st.maxSize := by
  simp [acquireReturn]

@[simp] lemma markAcquired_createdAt (now : Nat) (c : Conn) :
    (markAcquired now c).createdAt = c.createdAt := rfl

@[simp] lemma markAcquired_acquiredAt (now : Nat) (c : Conn) :
    (markAcquired now c).acquiredAt = some now := rfl

@[simp] lemma markAcquired_cid (now : Nat) (c : Conn) :
    (markAcquired now c).cid = c.cid := rfl

@[simp] lemma acquireReturn_conn (now : Nat) (st : PoolState) (c : Conn) (fb : Bool) :
    (acquireReturn now st c fb).conn = some (markAcquired now c) := rfl

@[simp] lemma acquireReturn_fromFallback (now : Nat) (st : PoolState) (c : Conn) (fb : Bool) :
    (acquireReturn now st c fb).fromFallback = fb := rfl

@[simp] lemma acquireReturn_st_idle (now : Nat) (st : PoolState) (c : Conn) (fb : Bool) :
    (acquireReturn now st c fb).st.idle = st.idle := rfl

@[simp] lemma acquireReturn_st_inflight (now : Nat) (st : PoolState) (c : Conn) (fb : Bool) :
    (acquireReturn now st c fb).st.inflight = st.inflight ++ [markAcquired now c] := rfl

@[simp] lemma acquireReturn_st_activeCount (now : Nat) (st : PoolState) (c : Conn) (fb : Bool) :
    (acquireReturn now st c fb).st.activeCount = st.activeCount + 1 := rfl

@[simp] lemma acquireReturn_st_currentSize (now : Nat) (st : PoolState) (c : Conn) (fb : Bool) :
    (acquireReturn now st c fb).st.currentSize = st.currentSize := rfl

@[simp] lemma acquireReturn_st_maxSize (now : Nat) (st : PoolState) (c : Conn) (fb : Bool) :
    (acquireReturn now st c fb).st.maxSize = st.maxSize := rfl

@[simp] lemma acquireReturn_st_maxLifetime (now : Nat) (st : PoolState) (c : Conn) (fb : Bool) :
    (acquireReturn now st c fb).st.maxLifetime = st.maxLifetime := rfl

lemma poolInv_of_parts {st : PoolState}
    (h1 : st.activeCount + st.idle.length ≤ st.currentSize)
    (h2 : st.currentSize ≤ st.maxSize)
    (h3 : st.inflight.length ≤ st.activeCount) : PoolInv st :=
  ⟨h1, h2, h3⟩

lemma acquireReturn_inv (now : Nat) {st : PoolState} (c : Conn) (fb : Bool)
    (h1 : st.activeCount + 1 + st.idle.length ≤ st.currentSize)
    (h2 : st.currentSize ≤ st.maxSize)
    (h3 : st.inflight.length ≤ st.activeCount) :
    PoolInv (acquireReturn now st c fb).st := by
  refine ⟨?_, ?_, ?_⟩ <;> simp [acquireReturn] <;> omega

lemma acquireGo_inv (now : Nat) :
    ∀ (fuel : Nat) (st : PoolState) (oracle : List CreateOutcome) (rc b : Nat),
      PoolInv st → PoolInv (acquireGo now fuel st oracle rc b).st := by
  intro fuel
  induction fuel with
  | zero => intro st oracle rc b h; simpa [acquireGo] using h
  | succ n ih =>
    intro st oracle rc b h
    obtain ⟨hA, hB, hC⟩ := h
    simp only [acquireGo]
    split
    · -- retry budget not exhausted
      split
      · -- queue head available
        rename_i c rest hidle
        have hlen : st.idle.length = rest.length + 1 := by rw [hidle]; simp
        split
        · -- expired: destroy, recycle, create a replacement
          split
          · -- creation failed: loop
            rename_i hr
            apply ih
            have hsz := createInternal_conn_none hr
            simp at hsz
            refine poolInv_of_parts ?_ ?_ ?_ <;> simp <;> omega
          · -- creation succeeded: validate
            rename_i c2 hr
            have hsz := createInternal_conn_some hr
            simp at hsz
            split
            · -- valid: returned to the caller
              apply acquireReturn_inv <;> simp <;> omega
            · -- invalid: destroy and loop
              apply ih
              refine poolInv_of_parts ?_ ?_ ?_ <;> simp <;> omega
        · -- not expired: validate
          split
          · -- valid: returned to the caller
            apply acquireReturn_inv <;> simp <;> omega
          · -- invalid: destroy and loop
            apply ih
            refine poolInv_of_parts ?_ ?_ ?_ <;> simp [closeConn] <;> omega
      · -- queue empty
        rename_i hidle
        have hlen : st.idle.length = 0 := by rw [hidle]; simp
        split
        · -- room to grow: create
          split
          · -- creation succeeded: returned to the caller
            rename_i c hr
            have hsz := createInternal_conn_some hr
            simp at hsz
            apply acquireReturn_inv <;> simp <;> omega
          · -- creation failed: back off and loop
            rename_i hr
            apply ih
            have hsz := createInternal_conn_none hr
            simp at hsz
            refine poolInv_of_parts ?_ ?_ ?_ <;> simp <;> omega
        · -- cannot grow: loop
          exact ih _ _ _ _ ⟨hA, hB, hC⟩
    · -- final blocking wait
      split
      · rename_i c rest hidle
        have hlen : st.idle.length = rest.length + 1 := by rw [hidle]; simp
        apply acquireReturn_inv <;> simp <;> omega
      · exact ⟨hA, hB, hC⟩

lemma acquireGo_age (now : Nat) :
    ∀ (fuel : Nat) (st : PoolState) (oracle : List CreateOutcome) (rc b : Nat),
      (acquireGo now fuel st oracle rc b).fromFallback = false →
      ∀ c, (acquireGo now fuel st oracle rc b).conn = some c →
        now - c.createdAt ≤ st.maxLifetime := by
  intro fuel
  induction fuel with
  | zero => intro st oracle rc b hfb c hc; simp [acquireGo] at hc
  | succ n ih =>
    intro st oracle rc b
    simp only [acquireGo]
    split
    · -- retry budget not exhausted
      split
      · -- queue head available
        rename_i c0 rest hidle
        split
        · -- expired head
          split
          · -- replacement creation failed: loop
            intro hfb c hc
            have := ih _ _ _ _ hfb c hc
            simpa using this
          · -- replacement created: validate
            rename_i c2 hr
            have hsz := createInternal_conn_some hr
            split
            · -- fresh replacement returned: age zero
              intro hfb c hc
              simp only [acquireReturn_conn, Option.some.injEq] at hc
              subst hc
              simp [hsz.2.2.1]
            · -- invalid: loop
              intro hfb c hc
              have := ih _ _ _ _ hfb c hc
              simpa using this
        · -- head not expired: its age is within the lifetime bound
          rename_i hexp
          split
          · intro hfb c hc
            simp only [acquireReturn_conn, Option.some.injEq] at hc
            subst hc
            simp only [isExpired, Bool.not_eq_true, decide_eq_false_iff_not,
              not_lt] at hexp
            simpa using hexp
          · intro hfb c hc
            have := ih _ _ _ _ hfb c hc
            simpa using this
      · -- queue empty
        split
        · split
          · -- fresh creation returned: age zero
            rename_i c2 hr
            have hsz := createInternal_conn_some hr
            intro hfb c hc
            simp only [acquireReturn_conn, Option.some.injEq] at hc
            subst hc
            simp [hsz.2.2.1]
          · intro hfb c hc
            have := ih _ _ _ _ hfb c hc
            simpa using this
        · intro hfb c hc
          have := ih _ _ _ _ hfb c hc
          simpa using this
    · -- final blocking wait: the returned handle is unchecked, but the
      -- result is marked as coming from the fallback
      split
      · intro hfb
        simp at hfb
      · intro hfb c hc
        simp at hc

/-! Field-preservation lemmas for the health-check sweep. -/

lemma sweepDrain_idle (now : Nat) :
    ∀ (conns : List Conn) (st : PoolState) (acc : List Conn)
      (oracle : List CreateOutcome),
      (sweepDrain now conns st acc oracle).1.idle = st.idle := by
  intro conns
  induction conns with
  | nil => intro st acc oracle; rfl
  | cons c rest ih =>
    intro st acc oracle
    simp only [sweepDrain]
    split <;> simp [ih]

lemma sweepDrain_inflight (now : Nat) :
    ∀ (conns : List Conn) (st : PoolState) (acc : List Conn)
      (oracle : List CreateOutcome),
      (sweepDrain now conns st acc oracle).1.inflight = st.inflight := by
  intro conns
  induction conns with
  | nil => intro st acc oracle; rfl
  | cons c rest ih =>
    intro st acc oracle
    simp only [sweepDrain]
    split <;> simp [ih]

lemma sweepDrain_activeCount (now : Nat) :
    ∀ (conns : List Conn) (st : PoolState) (acc : List Conn)
      (oracle : List CreateOutcome),
      (sweepDrain now conns st acc oracle).1.activeCount = st.activeCount := by
  intro conns
  induction conns with
  | nil => intro st acc oracle; rfl
  | cons c rest ih =>
    intro st acc oracle
    simp only [sweepDrain]
    split <;> simp [ih]

lemma sweepDrain_minSize (now : Nat) :
    ∀ (conns : List Conn) (st : PoolState) (acc : List Conn)
      (oracle : List CreateOutcome),
      (sweepDrain now conns st acc oracle).1.minSize = st.minSize := by
  intro conns
  induction conns with
  | nil => intro st acc oracle; rfl
  | cons c rest ih =>
    intro st acc oracle
    simp only [sweepDrain]
    split <;> simp [ih]

lemma sweepDrain_maxSize (now : Nat) :
    ∀ (conns : List Conn) (st : PoolState) (acc : List Conn)
      (oracle : List CreateOutcome),
      (sweepDrain now conns st acc oracle).1.maxSize = st.maxSize := by
  intro conns
  induction conns with
  | nil => intro st acc oracle; rfl
  | cons c rest ih =>
    intro st acc oracle
    simp only [sweepDrain]
    split <;> simp [ih]

lemma sweepDrain_maxLifetime (now : Nat) :
    ∀ (conns : List Conn) (st : PoolState) (acc : List Conn)
      (oracle : List CreateOutcome),
      (sweepDrain now conns st acc oracle).1.maxLifetime = st.maxLifetime := by
  intro conns
  induction conns with
  | nil => intro st acc oracle; rfl
  | cons c rest ih =>
    intro st acc oracle
    simp only [sweepDrain]
    split <;> simp [ih]

lemma sweepDrain_leakThreshold (now : Nat) :
    ∀ (conns : List Conn) (st : PoolState) (acc : List Conn)
      (oracle : List CreateOutcome),
      (sweepDrain now conns st acc oracle).1.leakThreshold = st.leakThreshold := by
  intro conns
  induction conns with
  | nil => intro st acc oracle; rfl
  | cons c rest ih =>
    intro st acc oracle
    simp only [sweepDrain]
    split <;> simp [ih]

lemma sweepDrain_leakWarnings (now : Nat) :
    ∀ (conns : List Conn) (st : PoolState) (acc : List Conn)
      (oracle : List CreateOutcome),
      (sweepDrain now conns st acc oracle).1.totalLeakWarnings = st.totalLeakWarnings := by
  intro conns
  induction conns with
  | nil => intro st acc oracle; rfl
  | cons c rest ih =>
    intro st acc oracle
    simp only [sweepDrain]
    split <;> simp [ih]

lemma putBackIdle_inflight :
    ∀ (acc : List Conn) (st : PoolState),
      (putBackIdle acc st).inflight = st.inflight := by
  intro acc
  induction acc with
  | nil => intro st; rfl
  | cons c rest ih =>
    intro st
    simp only [putBackIdle]
    split <;> simp [ih]

lemma putBackIdle_activeCount :
    ∀ (acc : List Conn) (st : PoolState),
      (putBackIdle acc st).activeCount = st.activeCount := by
  intro acc
  induction acc with
  | nil => intro st; rfl
  | cons c rest ih =>
    intro st
    simp only [putBackIdle]
    split <;> simp [ih]

lemma putBackIdle_minSize :
    ∀ (acc : List Conn) (st : PoolState),
      (putBackIdle acc st).minSize = st.minSize := by
  intro acc
  induction acc with
  | nil => intro st; rfl
  | cons c rest ih =>
    intro st
    simp only [putBackIdle]
    split <;> simp [ih]

lemma putBackIdle_maxSize :
    ∀ (acc : List Conn) (st : PoolState),
      (putBackIdle acc st).maxSize = st.maxSize := by
  intro acc
  induction acc with
  | nil => intro st; rfl
  | cons c rest ih =>
    intro st
    simp only [putBackIdle]
    split <;> simp [ih]

lemma putBackIdle_maxLifetime :
    ∀ (acc : List Conn) (st : PoolState),
      (putBackIdle acc st).maxLifetime = st.maxLifetime := by
  intro acc
  induction acc with
  | nil => intro st; rfl
  | cons c rest ih =>
    intro st
    simp only [putBackIdle]
    split <;> simp [ih]

lemma putBackIdle_leakThreshold :
    ∀ (acc : List Conn) (st : PoolState),
      (putBackIdle acc st).leakThreshold = st.leakThreshold := by
  intro acc
  induction acc with
  | nil => intro st; rfl
  | cons c rest ih =>
    intro st
    simp only [putBackIdle]
    split <;> simp [ih]

lemma putBackIdle_leakWarnings :
    ∀ (acc : List Conn) (st : PoolState),
      (putBackIdle acc st).totalLeakWarnings = st.totalLeakWarnings := by
  intro acc
  induction acc with
  | nil => intro st; rfl
  | cons c rest ih =>
    intro st
    simp only [putBackIdle]
    split <;> simp [ih]

lemma topUp_inflight (now : Nat) :
    ∀ (oracle : List CreateOutcome) (st : PoolState),
      (topUp now oracle st).inflight = st.inflight := by
  intro oracle
  induction oracle with
  | nil => intro st; rw [topUp]; split <;> simp
  | cons o rest ih =>
    intro st
    rw [topUp]
    split
    · rfl
    · rcases hc : (createInternal now st o).conn with _ | c
      · simp [hc]
      · simp only [hc]
        split <;> simp [ih]

lemma topUp_activeCount (now : Nat) :
    ∀ (oracle : List CreateOutcome) (st : PoolState),
      (topUp now oracle st).activeCount = st.activeCount := by
  intro oracle
  induction oracle with
  | nil => intro st; rw [topUp]; split <;> simp
  | cons o rest ih =>
    intro st
    rw [topUp]
    split
    · rfl
    · rcases hc : (createInternal now st o).conn with _ | c
      · simp [hc]
      · simp only [hc]
        split <;> simp [ih]

lemma topUp_maxLifetime (now : Nat) :
    ∀ (oracle : List CreateOutcome) (st : PoolState),
      (topUp now oracle st).maxLifetime = st.maxLifetime := by
  intro oracle
  induction oracle with
  | nil => intro st; rw [topUp]; split <;> simp
  | cons o rest ih =>
    intro st
    rw [topUp]
    split
    · rfl
    · rcases hc : (createInternal now st o).conn with _ | c
      · simp [hc]
      · simp only [hc]
        split <;> simp [ih]

lemma topUp_leakThreshold (now : Nat) :
    ∀ (oracle : List CreateOutcome) (st : PoolState),
      (topUp now oracle st).leakThreshold = st.leakThreshold := by
  intro oracle
  induction oracle with
  | nil => intro st; rw [topUp]; split <;> simp
  | cons o rest ih =>
    intro st
    rw [topUp]
    split
    · rfl
    · rcases hc : (createInternal now st o).conn with _ | c
      · simp [hc]
      · simp only [hc]
        split <;> simp [ih]

lemma topUp_leakWarnings (now : Nat) :
    ∀ (oracle : List CreateOutcome) (st : PoolState),
      (topUp now oracle st).totalLeakWarnings = st.totalLeakWarnings := by
  intro oracle
  induction oracle with
  | nil => intro st; rw [topUp]; split <;> simp
  | cons o rest ih =>
    intro st
    rw [topUp]
    split
    · rfl
    · rcases hc : (createInternal now st o).conn with _ | c
      · simp [hc]
      · simp only [hc]
        split <;> simp [ih]

@[simp] lemma detectLeaks_idle (now : Nat) (st : PoolState) :
    (detectLeaks now st).idle = st.idle := rfl

@[simp] lemma detectLeaks_inflight (now : Nat) (st : PoolState) :
    (detectLeaks now st).inflight = st.inflight := rfl

@[simp] lemma detectLeaks_activeCount (now : Nat) (st : PoolState) :
    (detectLeaks now st).activeCount = st.activeCount := rfl

@[simp] lemma detectLeaks_currentSize (now : Nat) (st : PoolState) :
    (detectLeaks now st).currentSize = st.currentSize := rfl

@[simp] lemma detectLeaks_maxSize (now : Nat) (st : PoolState) :
    (detectLeaks now st).maxSize = st.maxSize := rfl

@[simp] lemma detectLeaks_maxLifetime (now : Nat) (st : PoolState) :
    (detectLeaks now st).maxLifetime = st.maxLifetime := rfl

@[simp] lemma detectLeaks_warnings (now : Nat) (st : PoolState) :
    (detectLeaks now st).totalLeakWarnings =
      st.totalLeakWarnings + (st.inflight.filter (isLeaked now st.leakThreshold)).length := rfl

/-! Age bounds through the sweep. -/

lemma processIdleConn_of_expired {now : Nat} {st : PoolState} {c : Conn}
    (h : isExpired now st c = true) :
    processIdleConn now st c = .recycleExpired := by
  simp [processIdleConn, h]

lemma processIdleConn_ne_recycle {now : Nat} {st : PoolState} {c : Conn}
    (h : isExpired now st c = false) :
    processIdleConn now st c ≠ .recycleExpired := by
  unfold processIdleConn
  rw [if_neg (by simp [h])]
  dsimp only
  split
  · simp
  · split
    · split <;> simp
    · split <;> simp

lemma sweepDrain_acc_age (now ml : Nat) :
    ∀ (conns : List Conn) (st : PoolState) (acc : List Conn)
      (oracle : List CreateOutcome),
      st.maxLifetime = ml →
      (∀ c ∈ acc, now - c.createdAt ≤ ml) →
      ∀ c ∈ (sweepDrain now conns st acc oracle).2.1, now - c.createdAt ≤ ml := by
  intro conns
  induction conns with
  | nil => intro st acc oracle hml hacc c hc; exact hacc c hc
  | cons c0 rest ih =>
    intro st acc oracle hml hacc
    by_cases hexp : isExpired now st c0 = true
    · -- the expired head is destroyed; its replacement, if any, is fresh
      simp only [sweepDrain, processIdleConn_of_expired hexp]
      rcases hr : (createInternal now
          { closeConn st with totalRecycled := (closeConn st).totalRecycled + 1 }
          (oracle.headD [])).conn with _ | nc
      · simp only [hr]
        apply ih _ _ _ (by simp [hml]) hacc
      · simp only [hr]
        apply ih _ _ _ (by simp [hml])
        intro c hc
        rcases List.mem_append.1 hc with h1 | h1
        · exact hacc c h1
        · have := (createInternal_conn_some hr).2.2.1
          simp only [List.mem_singleton] at h1
          subst h1
          omega
    · -- the head is within the lifetime bound; it either survives or is
      -- dropped, and replacements are fresh
      have hage : now - c0.createdAt ≤ ml := by
        simp only [isExpired, decide_eq_true_eq, not_lt] at hexp
        omega
      simp only [sweepDrain]
      split
      · -- contradiction: an unexpired handle is never recycled
        rename_i heq
        exact absurd heq
          (processIdleConn_ne_recycle (Bool.not_eq_true _ ▸ hexp))
      · exact fun c hc => ih _ _ _ (by simp [hml]) hacc c hc
      · rename_i heq
        rcases hr : (createInternal now (closeConn st) (oracle.headD [])).conn
          with _ | nc
        · simp only [hr]
          exact fun c hc => ih _ _ _ (by simp [hml]) hacc c hc
        · simp only [hr]
          apply ih _ _ _ (by simp [hml])
          intro c hc
          rcases List.mem_append.1 hc with h1 | h1
          · exact hacc c h1
          · have := (createInternal_conn_some hr).2.2.1
            simp only [List.mem_singleton] at h1
            subst h1
            omega
      · -- kept with a refreshed last_used_at
        apply ih _ _ _ hml
        intro c hc
        rcases List.mem_append.1 hc with h1 | h1
        · exact hacc c h1
        · simp only [List.mem_singleton] at h1
          subst h1
          simpa using hage
      · -- kept as-is
        apply ih _ _ _ hml
        intro c hc
        rcases List.mem_append.1 hc with h1 | h1
        · exact hacc c h1
        · simp only [List.mem_singleton] at h1
          subst h1
          exact hage
      · exact fun c hc => ih _ _ _ (by simp [hml]) hacc c hc

lemma putBackIdle_mem :
    ∀ (acc : List Conn) (st : PoolState) (c : Conn),
      c ∈ (putBackIdle acc st).idle → c ∈ st.idle ∨ c ∈ acc := by
  intro acc
  induction acc with
  | nil => intro st c hc; exact Or.inl hc
  | cons a rest ih =>
    intro st c hc
    rw [putBackIdle] at hc
    revert hc
    split
    · intro hc
      rcases ih _ _ hc with h1 | h1
      · rcases List.mem_append.1 h1 with h2 | h2
        · exact Or.inl h2
        · simp only [List.mem_singleton] at h2
          exact Or.inr (by simp [h2])
      · exact Or.inr (by simp [h1])
    · intro hc
      rcases ih _ _ hc with h1 | h1
      · exact Or.inl h1
      · exact Or.inr (by simp [h1])

lemma topUp_mem (now : Nat) :
    ∀ (oracle : List CreateOutcome) (st : PoolState) (c : Conn),
      c ∈ (topUp now oracle st).idle → c ∈ st.idle ∨ c.createdAt = now := by
  intro oracle
  induction oracle with
  | nil =>
    intro st c hc
    rw [topUp] at hc
    revert hc
    split
    · exact Or.inl
    · intro hc
      exact Or.inl (by simpa using hc)
  | cons o rest ih =>
    intro st c hc
    rw [topUp] at hc
    revert hc
    split
    · exact Or.inl
    · rcases hr : (createInternal now st o).conn with _ | nc
      · simp only [hr]
        intro hc
        exact Or.inl (by simpa using hc)
      · simp only [hr]
        split
        · intro hc
          rcases ih _ _ hc with h1 | h1
          · have h1b : c ∈ (createInternal now st o).st.idle ++ [nc] := h1
            rw [createInternal_st_idle] at h1b
            rcases List.mem_append.1 h1b with h2 | h2
            · exact Or.inl h2
            · simp only [List.mem_singleton] at h2
              subst h2
              exact Or.inr (createInternal_conn_some hr).2.2.1
          · exact Or.inr h1
        · intro hc
          exact Or.inl (by simpa using hc)

/-- Every handle left in the idle queue by _check_idle_connections is within
the lifetime bound: survivors passed the check-1 expiry test and
replacements or top-ups were created at the sweep instant. -/
lemma checkIdleConns_age (now : Nat) (st : PoolState) (oracle : List CreateOutcome) :
    ∀ c ∈ (checkIdleConns now st oracle).idle,
      now - c.createdAt ≤ st.maxLifetime := by
  intro c hc
  unfold checkIdleConns at hc
  rcases topUp_mem now _ _ _ hc with h1 | h1
  · rcases putBackIdle_mem _ _ _ h1 with h2 | h2
    · rw [sweepDrain_idle] at h2
      simp at h2
    · exact sweepDrain_acc_age now st.maxLifetime _ _ _ _ (by simp) (by simp) c h2
  · omega

/-! Invariant preservation through the sweep. -/

lemma sweepDrain_inv (now : Nat) :
    ∀ (conns : List Conn) (st : PoolState) (acc : List Conn)
      (oracle : List CreateOutcome),
      st.activeCount + st.idle.length + conns.length + acc.length ≤ st.currentSize →
      st.currentSize ≤ st.maxSize →
      (sweepDrain now conns st acc oracle).1.activeCount +
          (sweepDrain now conns st acc oracle).1.idle.length +
          (sweepDrain now conns st acc oracle).2.1.length ≤
        (sweepDrain now conns st acc oracle).1.currentSize ∧
      (sweepDrain now conns st acc oracle).1.currentSize ≤
        (sweepDrain now conns st acc oracle).1.maxSize := by
  intro conns
  induction conns with
  | nil =>
    intro st acc oracle h1 h2
    simp only [sweepDrain]
    omega
  | cons c0 rest ih =>
    intro st acc oracle h1 h2
    simp only [sweepDrain, List.length_cons] at h1 ⊢
    split
    · -- recycle the expired head
      rcases hr : (createInternal now
          { closeConn st with totalRecycled := (closeConn st).totalRecycled + 1 }
          (oracle.headD [])).conn with _ | nc
      · simp only [hr]
        apply ih
        · have := createInternal_conn_none hr
          simp at this
          simp [this]
          omega
        · have := createInternal_conn_none hr
          simp at this
          simp [this]
          omega
      · simp only [hr]
        apply ih
        · have := createInternal_conn_some hr
          simp at this
          simp [this.1]
          omega
        · have := createInternal_conn_some hr
          simp at this
          simp [this.1]
          omega
    · -- drop on idle timeout
      apply ih <;> simp <;> omega
    · -- keepalive validation failed
      rcases hr : (createInternal now (closeConn st) (oracle.headD [])).conn
        with _ | nc
      · simp only [hr]
        apply ih
        · have := createInternal_conn_none hr
          simp at this
          simp [this]
          omega
        · have := createInternal_conn_none hr
          simp at this
          simp [this]
          omega
      · simp only [hr]
        apply ih
        · have := createInternal_conn_some hr
          simp at this
          simp [this.1]
          omega
        · have := createInternal_conn_some hr
          simp at this
          simp [this.1]
          omega
    · -- keepalive passed: kept, refreshed
      apply ih <;> first | omega | (simp; omega)
    · -- kept as-is
      apply ih <;> first | omega | (simp; omega)
    · -- invalid: destroyed
      apply ih <;> first | omega | (simp; omega)

lemma putBackIdle_inv :
    ∀ (acc : List Conn) (st : PoolState),
      st.activeCount + st.idle.length + acc.length ≤ st.currentSize →
      st.currentSize ≤ st.maxSize →
      (putBackIdle acc st).activeCount + (putBackIdle acc st).idle.length ≤
        (putBackIdle acc st).currentSize ∧
      (putBackIdle acc st).currentSize ≤ (putBackIdle acc st).maxSize := by
  intro acc
  induction acc with
  | nil =>
    intro st h1 h2
    simp only [putBackIdle]
    omega
  | cons a rest ih =>
    intro st h1 h2
    simp only [putBackIdle, List.length_cons] at h1 ⊢
    split
    · apply ih <;> simp <;> omega
    · apply ih <;> simp <;> omega

lemma topUp_inv (now : Nat) :
    ∀ (oracle : List CreateOutcome) (st : PoolState),
      st.activeCount + st.idle.length ≤ st.currentSize →
      st.currentSize ≤ st.maxSize →
      (topUp now oracle st).activeCount + (topUp now oracle st).idle.length ≤
        (topUp now oracle st).currentSize ∧
      (topUp now oracle st).currentSize ≤ (topUp now oracle st).maxSize := by
  intro oracle
  induction oracle with
  | nil =>
    intro st h1 h2
    rw [topUp]
    split
    · exact ⟨h1, h2⟩
    · rcases hr : (createInternal now st []).conn with _ | nc
      · have := createInternal_conn_none hr
        simp
        omega
      · have := createInternal_conn_some hr
        simp
        omega
  | cons o rest ih =>
    intro st h1 h2
    rw [topUp]
    split
    · exact ⟨h1, h2⟩
    · rcases hr : (createInternal now st o).conn with _ | nc
      · simp only [hr]
        have := createInternal_conn_none hr
        simp
        omega
      · simp only [hr]
        have hsz := createInternal_conn_some hr
        split
        · apply ih <;> simp [hsz.1] <;> omega
        · simp
          omega

lemma checkIdleConns_inv (now : Nat) (st : PoolState) (oracle : List CreateOutcome)
    (h : PoolInv st) : PoolInv (checkIdleConns now st oracle) := by
  obtain ⟨hA, hB, hC⟩ := h
  unfold checkIdleConns
  set st0 : PoolState := { st with idle := [] } with hst0
  set d := sweepDrain now st.idle st0 [] oracle with hd0
  have hd := sweepDrain_inv now st.idle st0 [] oracle
    (by simp [hst0]; omega) (by simp [hst0]; omega)
  have hdf : d.1.inflight = st.inflight := by rw [hd0, sweepDrain_inflight]
  have hda : d.1.activeCount = st.activeCount := by rw [hd0, sweepDrain_activeCount]
  have hp := putBackIdle_inv d.2.1 d.1 hd.1 hd.2
  have ht := topUp_inv now d.2.2 (putBackIdle d.2.1 d.1) hp.1 hp.2
  refine ⟨ht.1, ht.2, ?_⟩
  rw [topUp_inflight, putBackIdle_inflight, hdf, topUp_activeCount,
    putBackIdle_activeCount, hda]
  exact hC

/-- _check_idle_connections never touches the in-flight map. -/
lemma checkIdleConns_inflight (now : Nat) (st : PoolState)
    (oracle : List CreateOutcome) :
    (checkIdleConns now st oracle).inflight = st.inflight := by
  unfold checkIdleConns
  rw [topUp_inflight, putBackIdle_inflight, sweepDrain_inflight]

lemma checkIdleConns_activeCount (now : Nat) (st : PoolState)
    (oracle : List CreateOutcome) :
    (checkIdleConns now st oracle).activeCount = st.activeCount := by
  unfold checkIdleConns
  rw [topUp_activeCount, putBackIdle_activeCount, sweepDrain_activeCount]

lemma checkIdleConns_leakThreshold (now : Nat) (st : PoolState)
    (oracle : List CreateOutcome) :
    (checkIdleConns now st oracle).leakThreshold = st.leakThreshold := by
  unfold checkIdleConns
  rw [topUp_leakThreshold, putBackIdle_leakThreshold, sweepDrain_leakThreshold]

lemma checkIdleConns_leakWarnings (now : Nat) (st : PoolState)
    (oracle : List CreateOutcome) :
    (checkIdleConns now st oracle).totalLeakWarnings = st.totalLeakWarnings := by
  unfold checkIdleConns
  rw [topUp_leakWarnings, putBackIdle_leakWarnings, sweepDrain_leakWarnings]

lemma checkIdleConns_maxLifetime (now : Nat) (st : PoolState)
    (oracle : List CreateOutcome) :
    (checkIdleConns now st oracle).maxLifetime = st.maxLifetime := by
  unfold checkIdleConns
  rw [topUp_maxLifetime, putBackIdle_maxLifetime, sweepDrain_maxLifetime]

lemma healthSweep_inv (now : Nat) (st : PoolState) (oracle : List CreateOutcome)
    (h : PoolInv st) : PoolInv (healthSweep now st oracle) := by
  unfold healthSweep
  obtain ⟨hA, hB, hC⟩ := checkIdleConns_inv now st oracle h
  exact ⟨by simpa using hA, by simpa using hB, by simpa using hC⟩

/-! Invariant preservation for release, discard, close_all and warm-up. -/

lemma popCid_none :
    ∀ (l : List Conn) (cid : Nat), (popCid l cid).1 = none → (popCid l cid).2 = l := by
  intro l
  induction l with
  | nil => intro cid _; rfl
  | cons c rest ih =>
    intro cid h
    rw [popCid] at h ⊢
    revert h
    split
    · simp
    · intro h
      simp only at h ⊢
      rw [ih cid h]

lemma popCid_some :
    ∀ (l : List Conn) (cid : Nat) (c : Conn), (popCid l cid).1 = some c →
      (popCid l cid).2.length + 1 = l.length := by
  intro l
  induction l with
  | nil => intro cid c h; simp [popCid] at h
  | cons c0 rest ih =>
    intro cid c h
    rw [popCid] at h ⊢
    revert h
    split
    · intro _; simp
    · intro h
      simp only at h ⊢
      simp only [List.length_cons]
      rw [← ih cid c h]

lemma popCid_isSome_of_any :
    ∀ (l : List Conn) (cid : Nat),
      l.any (fun c => c.cid = cid) = true → (popCid l cid).1.isSome = true := by
  intro l
  induction l with
  | nil => intro cid h; simp at h
  | cons c0 rest ih =>
    intro cid h
    rw [popCid]
    split
    · rfl
    · rename_i hne
      simp only [List.any_cons, Bool.or_eq_true, decide_eq_true_eq] at h
      rcases h with h | h
      · exact absurd h hne
      · simpa using ih cid (by simpa using h)

lemma releaseConn_inv (now : Nat) (st : PoolState) (cid : Nat) (wv : Bool)
    (attempts : CreateOutcome)
    (hwf : st.inflight.any (fun c => c.cid = cid) = true)
    (h : PoolInv st) : PoolInv (releaseConn now st cid wv attempts) := by
  obtain ⟨hA, hB, hC⟩ := h
  have hs := popCid_isSome_of_any st.inflight cid hwf
  rcases hpop : (popCid st.inflight cid).1 with _ | c0
  · rw [hpop] at hs; simp at hs
  have hlen := popCid_some st.inflight cid c0 hpop
  unfold releaseConn
  dsimp only
  rw [hpop]
  dsimp only
  split
  · -- expired: destroy and create a replacement for the queue
    split
    · -- replacement created
      rename_i c2 hr
      have hsz := createInternal_conn_some hr
      simp at hsz
      split
      · refine ⟨?_, ?_, ?_⟩ <;> simp [hsz.1] <;> omega
      · refine ⟨?_, ?_, ?_⟩ <;> simp [hsz.1] <;> omega
    · -- replacement creation failed
      rename_i hr
      have h2 := createInternal_conn_none hr
      simp at h2
      refine ⟨?_, ?_, ?_⟩ <;> simp [h2] <;> omega
  · -- not expired, valid: requeue while capacity allows
    split
    · split
      · refine ⟨?_, ?_, ?_⟩ <;> simp <;> omega
      · refine ⟨?_, ?_, ?_⟩ <;> simp <;> omega
    · refine ⟨?_, ?_, ?_⟩ <;> simp <;> omega

lemma discardConn_inv (st : PoolState) (cid : Nat)
    (hwf : st.inflight.any (fun c => c.cid = cid) = true)
    (h : PoolInv st) : PoolInv (discardConn st cid) := by
  obtain ⟨hA, hB, hC⟩ := h
  have hs := popCid_isSome_of_any st.inflight cid hwf
  rcases hpop : (popCid st.inflight cid).1 with _ | c0
  · rw [hpop] at hs; simp at hs
  have hlen := popCid_some st.inflight cid c0 hpop
  unfold discardConn
  refine ⟨?_, ?_, ?_⟩ <;> simp <;> omega

lemma closeAllConns_foldl :
    ∀ (l : List Conn) (s : PoolState),
      (l.foldl (fun s _ => closeConn s) s).currentSize = s.currentSize - l.length ∧
      (l.foldl (fun s _ => closeConn s) s).activeCount = s.activeCount ∧
      (l.foldl (fun s _ => closeConn s) s).maxSize = s.maxSize ∧
      (l.foldl (fun s _ => closeConn s) s).idle = s.idle ∧
      (l.foldl (fun s _ => closeConn s) s).inflight = s.inflight := by
  intro l
  induction l with
  | nil => intro s; simp
  | cons c rest ih =>
    intro s
    simp only [List.foldl_cons]
    have := ih (closeConn s)
    simp at this
    simp [this]
    omega

lemma closeAllConns_inv (st : PoolState) (h : PoolInv st) :
    PoolInv (closeAllConns st) := by
  obtain ⟨hA, hB, hC⟩ := h
  unfold closeAllConns
  have := closeAllConns_foldl st.idle st
  refine ⟨?_, ?_, ?_⟩ <;> simp [this.1, this.2.1, this.2.2.1] <;> omega

lemma warmupPool_foldl_inv (now : Nat) :
    ∀ (l : List Nat) (st : PoolState) (oracle : List CreateOutcome),
      PoolInv st →
      PoolInv (l.foldl
        (fun s i =>
          let r := createInternal now s (oracle.getD i [])
          match r.conn with
          | some c => { r.st with idle := r.st.idle ++ [c] }
          | none => r.st)
        st) := by
  intro l
  induction l with
  | nil => intro st oracle h; exact h
  | cons i rest ih =>
    intro st oracle h
    obtain ⟨hA, hB, hC⟩ := h
    simp only [List.foldl_cons]
    apply ih
    rcases hr : (createInternal now st (oracle.getD i [])).conn with _ | c
    · simp only [hr]
      have h2 := createInternal_conn_none hr
      simp at h2
      refine ⟨?_, ?_, ?_⟩ <;> simp [h2] <;> omega
    · simp only [hr]
      have hsz := createInternal_conn_some hr
      simp at hsz
      refine ⟨?_, ?_, ?_⟩ <;> simp [hsz.1] <;> omega

lemma warmupPool_inv (now : Nat) (st : PoolState) (oracle : List CreateOutcome)
    (h : PoolInv st) : PoolInv (warmupPool now st oracle) :=
  warmupPool_foldl_inv now (List.range st.minSize) st oracle h

/-- Preservation of the counting invariant by every well-formed pool API
call. -/
lemma stepOp_inv (st : PoolState) (op : PoolOp)
    (hwf : opWf st op = true) (h : PoolInv st) : PoolInv (stepOp st op) := by
  cases op with
  | warmupOp now oracle => exact warmupPool_inv now st oracle h
  | acquireOp now oracle => exact acquireGo_inv now _ st oracle 0 100 h
  | releaseOp now cid wv attempts =>
      exact releaseConn_inv now st cid wv attempts (by simpa [opWf] using hwf) h
  | discardOp cid => exact discardConn_inv st cid (by simpa [opWf] using hwf) h
  | sweepOp now oracle => exact healthSweep_inv now st oracle h
  | closeAllOp => exact closeAllConns_inv st h

lemma runPool_inv :
    ∀ (ops : List PoolOp) (st : PoolState),
      traceWf st ops = true → PoolInv st → PoolInv (runPool st ops) := by
  intro ops
  induction ops with
  | nil => intro st _ h; exact h
  | cons op rest ih =>
    intro st hwf h
    rw [traceWf] at hwf
    simp only [Bool.and_eq_true] at hwf
    exact ih (stepOp st op) hwf.2 (stepOp_inv st op hwf.1 h)

lemma mkPool_inv (mn mx ml it ka lt : Nat) : PoolInv (mkPool mn mx ml it ka lt) := by
  refine ⟨?_, ?_, ?_⟩ <;> simp [mkPool]

/-! Claim theorems. -/

/-- C9: the connection-creation routine is documented (and specified) to
retry up to 3 times with exponential backoff 100ms -> 200ms -> 400ms before
giving up.  In the code the return None of line 1004 sits inside the except
block, so the first raised exception sleeps the 100ms backoff and then
returns None: a creation that would succeed on the second attempt is never
retried.  The theorem evaluates the routine at such an input (first attempt
raises, second would succeed) and shows it returns failure after exactly one
100ms sleep, with current_size unchanged; it also shows the documented
fast-fail when the pool is already at max_size. -/
theorem creation_retry_loop_dead :
    (createInternal 0 (mkPool 0 1 10 10 0 10)
        [none, some ⟨1, true⟩, some ⟨1, true⟩]).conn = none ∧
    (createInternal 0 (mkPool 0 1 10 10 0 10)
        [none, some ⟨1, true⟩, some ⟨1, true⟩]).sleeps = [100] ∧
    (createInternal 0 (mkPool 0 1 10 10 0 10)
        [none, some ⟨1, true⟩, some ⟨1, true⟩]).st = mkPool 0 1 10 10 0 10 ∧
    (createInternal 0 { mkPool 0 1 10 10 0 10 with currentSize := 1 }
        [some ⟨1, true⟩]).conn = none := by
  decide

/-- C10: a keepalive_time_seconds configured strictly between 0 and 30 is
silently replaced by 0 in the constructor, and a pool whose keepalive time
is 0 never enters the keepalive-validation branch of the idle sweep (the
keepalive_checked flag of line 1149 stays False for every handle); values 0
or at least 30 are kept as given. -/
theorem keepalive_window_disabled (k mn mx ml it lt : Nat) :
    (0 < k → k < 30 → (mkPool mn mx ml it k lt).keepaliveTime = 0) ∧
    (k = 0 ∨ 30 ≤ k → (mkPool mn mx ml it k lt).keepaliveTime = k) ∧
    (∀ (now : Nat) (st : PoolState) (c : Conn), st.keepaliveTime = 0 →
      processIdleConn now st c ≠ .keepaliveFail ∧
      processIdleConn now st c ≠ .keepRefreshed) := by
  refine ⟨?_, ?_, ?_⟩
  · intro h1 h2
    simp [mkPool, h1, h2]
  · intro h
    rcases h with h | h
    · simp [mkPool, h]
    · have h2 : ¬(k < 30) := by omega
      simp [mkPool, h2]
  · intro now st c h0
    unfold processIdleConn
    split
    · exact ⟨by simp, by simp⟩
    · dsimp only
      rw [h0]
      split
      · exact ⟨by simp, by simp⟩
      · have hka : (match
            (match c.acquiredAt with
              | some _ => (none : Option Nat)
              | none => some (now - c.lastUsedAt)) with
            | none => false
            | some i => decide (0 < 0) && decide (0 < i)) = false := by
          rcases c.acquiredAt <;> simp
        rw [hka]
        simp only [Bool.false_eq_true, if_false]
        split <;> exact ⟨by simp, by simp⟩

/-- Witness for keepalive_window_disabled: a pool configured with
keepalive_time 5 gets 0 and its sweep never keepalive-validates; a pool
configured with 45 keeps 45. -/
theorem keepalive_window_disabled_w :
    (mkPool 1 4 100 100 5 60).keepaliveTime = 0 ∧
    (mkPool 1 4 100 100 45 60).keepaliveTime = 45 ∧
    processIdleConn 7 (mkPool 1 4 100 100 5 60) ⟨1, 0, none, 0, true⟩ ≠
      IdleAction.keepRefreshed :=
  ⟨(keepalive_window_disabled 5 1 4 100 100 60).1 (by decide) (by decide),
   (keepalive_window_disabled 45 1 4 100 100 60).2.1 (Or.inr (by decide)),
   ((keepalive_window_disabled 5 1 4 100 100 60).2.2 7 (mkPool 1 4 100 100 5 60)
      ⟨1, 0, none, 0, true⟩ (by decide)).2⟩

/-- C8: a health-check sweep over a pool holding a leaked in-flight handle
(acquired-duration beyond leak_detection_threshold) counts one warning per
leaked handle and strictly increases the warning counter, while the
in-flight map and active_count are left exactly as they were: leak
detection never closes, removes or reclaims a leaked handle. -/
theorem leak_detection_report_only (now : Nat) (st : PoolState)
    (oracle : List CreateOutcome) (c : Conn) (hc : c ∈ st.inflight)
    (hl : isLeaked now st.leakThreshold c = true) :
    (healthSweep now st oracle).inflight = st.inflight ∧
    (healthSweep now st oracle).activeCount = st.activeCount ∧
    (healthSweep now st oracle).totalLeakWarnings =
      st.totalLeakWarnings +
        (st.inflight.filter (isLeaked now st.leakThreshold)).length ∧
    st.totalLeakWarnings < (healthSweep now st oracle).totalLeakWarnings := by
  have h1 := checkIdleConns_inflight now st oracle
  have h2 := checkIdleConns_activeCount now st oracle
  have h3 := checkIdleConns_leakThreshold now st oracle
  have h4 := checkIdleConns_leakWarnings now st oracle
  have hmem : c ∈ st.inflight.filter (isLeaked now st.leakThreshold) :=
    List.mem_filter.2 ⟨hc, hl⟩
  have hpos : 0 < (st.inflight.filter (isLeaked now st.leakThreshold)).length :=
    List.length_pos.2 (List.ne_nil_of_mem hmem)
  unfold healthSweep
  refine ⟨by simp [h1], by simp [h2], by simp [h4, h1, h3], ?_⟩
  simp [h4, h1, h3]
  omega

/-- Witness for leak_detection_report_only: a handle held since time 0 with
threshold 5, swept at time 10. -/
theorem leak_detection_report_only_w :
    leakPoolW.totalLeakWarnings < (healthSweep 10 leakPoolW []).totalLeakWarnings :=
  (leak_detection_report_only 10 leakPoolW [] ⟨1, 0, some 0, 0, true⟩
    (by decide) (by decide)).2.2.2

/-- C1 (amended): a handle returned by acquire through its retry loop — the
queue path with its expiry and liveness checks, or a fresh creation — always
has age within max_lifetime_seconds, and after a health-check sweep no
handle left in the idle queue exceeds max_lifetime_seconds.  The final
blocking-wait fallback of lines 1386-1408 is excluded: it returns whatever
the queue yields with no expiry check (see the counterexample). -/
theorem acquire_lifetime_check_amended (now : Nat) (st : PoolState)
    (oracle oracle2 : List CreateOutcome) :
    ((acquireConn now st oracle).fromFallback = false →
      ∀ c, (acquireConn now st oracle).conn = some c →
        now - c.createdAt ≤ st.maxLifetime) ∧
    (∀ c ∈ (healthSweep now st oracle2).idle,
        now - c.createdAt ≤ st.maxLifetime) := by
  constructor
  · intro hfb c hc
    exact acquireGo_age now _ st oracle 0 100 hfb c hc
  · intro c hc
    have hidle : (healthSweep now st oracle2).idle =
        (checkIdleConns now st oracle2).idle := by
      simp [healthSweep]
    rw [hidle] at hc
    exact checkIdleConns_age now st oracle2 c hc

/-- Counterexample to C1 as stated: on a pool whose whole queue is expired
and whose creation attempts all fail, the retry loop burns its three
retries, and the final blocking wait then returns the fourth expired handle
unchecked — acquire hands the caller a handle whose age 100 exceeds the
10-second max lifetime. -/
theorem acquire_expired_fallback_ctrex :
    (acquireConn 100 expiredPoolC []).conn = some ⟨4, 0, some 100, 100, true⟩ ∧
    (acquireConn 100 expiredPoolC []).fromFallback = true ∧
    100 - (0 : Nat) > expiredPoolC.maxLifetime := by
  decide

/-- Witness for acquire_lifetime_check_amended: a fresh valid handle is
returned by the non-fallback path within its lifetime, and the handle the
sweep keeps is within its lifetime. -/
theorem acquire_lifetime_check_amended_w :
    10 - (Conn.mk 1 0 (some 10) 10 true).createdAt ≤ agePoolW.maxLifetime ∧
    5 - (Conn.mk 1 0 none 0 true).createdAt ≤ agePoolW.maxLifetime :=
  ⟨(acquire_lifetime_check_amended 10 agePoolW [] []).1 (by decide)
      ⟨1, 0, some 10, 10, true⟩ (by decide),
   (acquire_lifetime_check_amended 5 agePoolW [] []).2
      ⟨1, 0, none, 0, true⟩ (by decide)⟩

/-- C2: starting from a freshly constructed pool, every well-formed sequence
of pool operations (warm-up, acquire, release, discard, health-check sweep,
close_all; release and discard applied to handles actually held in-flight)
leaves the counters satisfying 0 ≤ active_count ≤ current_size ≤ max_size —
and since the trace is universally quantified, the inequality holds at every
observation point between operations. -/
theorem pool_counter_invariant (mn mx ml it ka lt : Nat) (ops : List PoolOp)
    (hwf : traceWf (mkPool mn mx ml it ka lt) ops = true) :
    (runPool (mkPool mn mx ml it ka lt) ops).activeCount ≤
        (runPool (mkPool mn mx ml it ka lt) ops).currentSize ∧
      (runPool (mkPool mn mx ml it ka lt) ops).currentSize ≤
        (runPool (mkPool mn mx ml it ka lt) ops).maxSize := by
  obtain ⟨h1, h2, h3⟩ :=
    runPool_inv ops (mkPool mn mx ml it ka lt) hwf (mkPool_inv mn mx ml it ka lt)
  exact ⟨by omega, h2⟩

/-- Witness for pool_counter_invariant on the concrete trace traceW. -/
theorem pool_counter_invariant_w :
    (runPool (mkPool 2 4 100 100 0 100) traceW).activeCount ≤
        (runPool (mkPool 2 4 100 100 0 100) traceW).currentSize ∧
      (runPool (mkPool 2 4 100 100 0 100) traceW).currentSize ≤
        (runPool (mkPool 2 4 100 100 0 100) traceW).maxSize :=
  pool_counter_invariant 2 4 100 100 0 100 traceW (by decide)

/-! RateLimiter lemmas and C3. -/

lemma rlAttempt_maxTokens (e : ℚ) (rl : RateLimiter) :
    (rlAttempt e rl).2.maxTokens = rl.maxTokens := by
  unfold rlAttempt; dsimp only; split <;> rfl

lemma rlAttempt_targetTps (e : ℚ) (rl : RateLimiter) :
    (rlAttempt e rl).2.targetTps = rl.targetTps := by
  unfold rlAttempt; dsimp only; split <;> rfl

lemma rlRun_maxTokens : ∀ (es : List ℚ) (rl : RateLimiter),
    (rlRun rl es).maxTokens = rl.maxTokens := by
  intro es
  induction es with
  | nil => intro rl; rfl
  | cons e rest ih =>
    intro rl
    show (rlRun (rlAttempt e rl).2 rest).maxTokens = rl.maxTokens
    rw [ih, rlAttempt_maxTokens]

lemma rlAttempt_bounds (e : ℚ) (rl : RateLimiter) (he : 0 ≤ e)
    (h0 : 0 ≤ rl.tokens) (h1 : rl.tokens ≤ (rl.maxTokens : ℚ))
    (htp : 0 ≤ rl.targetTps) :
    0 ≤ (rlAttempt e rl).2.tokens ∧
    (rlAttempt e rl).2.tokens ≤ ((rlAttempt e rl).2.maxTokens : ℚ) := by
  have hc : (0 : ℚ) ≤ (rl.targetTps : ℚ) := by exact_mod_cast htp
  have hnn : (0 : ℚ) ≤ rl.tokens + e * (rl.targetTps : ℚ) := by
    have := mul_nonneg he hc
    linarith
  have hmx : (0 : ℚ) ≤ (rl.maxTokens : ℚ) := le_trans h0 h1
  have hminle : min ((rl.maxTokens : ℚ)) (rl.tokens + e * (rl.targetTps : ℚ)) ≤
      (rl.maxTokens : ℚ) := min_le_left _ _
  have hminnn : (0 : ℚ) ≤
      min ((rl.maxTokens : ℚ)) (rl.tokens + e * (rl.targetTps : ℚ)) :=
    le_min hmx hnn
  unfold rlAttempt
  dsimp only
  split
  · rename_i hge
    constructor
    · simp only
      linarith
    · simp only
      linarith
  · exact ⟨hminnn, hminle⟩

lemma rlRun_bounds : ∀ (es : List ℚ) (rl : RateLimiter),
    (∀ e ∈ es, 0 ≤ e) → 0 ≤ rl.tokens → rl.tokens ≤ (rl.maxTokens : ℚ) →
    0 ≤ rl.targetTps →
    0 ≤ (rlRun rl es).tokens ∧
    (rlRun rl es).tokens ≤ ((rlRun rl es).maxTokens : ℚ) := by
  intro es
  induction es with
  | nil => intro rl _ h0 h1 _; exact ⟨h0, h1⟩
  | cons e rest ih =>
    intro rl he h0 h1 htp
    have hb := rlAttempt_bounds e rl (he e (by simp)) h0 h1 htp
    show 0 ≤ (rlRun (rlAttempt e rl).2 rest).tokens ∧ _
    refine ih (rlAttempt e rl).2 (fun x hx => he x (by simp [hx])) hb.1 ?_ ?_
    · rw [rlAttempt_maxTokens] at hb ⊢
      exact hb.2
    · rw [rlAttempt_targetTps]
      exact htp

/-- C3: for a limiter built with target_rate > 0, after any sequence of
acquire-loop passes at nonnegative elapsed intervals the token count stays
within 0 and the burst capacity, the burst capacity is 2 x target_rate, and
a pass consumes a token only when at least one token is available after the
refill. -/
theorem rate_limiter_token_invariant (t : Int) (ht : 0 < t) (es : List ℚ)
    (he : ∀ e ∈ es, 0 ≤ e) :
    (0 ≤ (rlRun (mkRateLimiter t) es).tokens ∧
      (rlRun (mkRateLimiter t) es).tokens ≤
        ((rlRun (mkRateLimiter t) es).maxTokens : ℚ)) ∧
    (rlRun (mkRateLimiter t) es).maxTokens = 2 * t ∧
    (∀ (rl : RateLimiter) (e : ℚ), (rlAttempt e rl).1 = true →
      1 ≤ min ((rl.maxTokens : ℚ)) (rl.tokens + e * (rl.targetTps : ℚ))) := by
  refine ⟨?_, ?_, ?_⟩
  · apply rlRun_bounds es (mkRateLimiter t) he
    · simp [mkRateLimiter]
      exact_mod_cast le_of_lt ht
    · simp only [mkRateLimiter]
      push_cast
      have : (0 : ℚ) ≤ (t : ℚ) := by exact_mod_cast le_of_lt ht
      linarith
    · simp [mkRateLimiter]
      omega
  · rw [rlRun_maxTokens]
    simp [mkRateLimiter]
    ring
  · intro rl e h
    unfold rlAttempt at h
    dsimp only at h
    split at h
    · rename_i hge
      exact hge
    · simp at h

/-- Witness for rate_limiter_token_invariant at target 1 over elapsed
intervals 0 and 1. -/
theorem rate_limiter_token_invariant_w :
    0 ≤ (rlRun (mkRateLimiter 1) [0, 1]).tokens ∧
    (rlRun (mkRateLimiter 1) [0, 1]).maxTokens = 2 * 1 :=
  ⟨(rate_limiter_token_invariant 1 (by decide) [0, 1] (by decide)).1.1,
   (rate_limiter_token_invariant 1 (by decide) [0, 1] (by decide)).2.1⟩

/-- C4 (amended, for a nonzero configured boundary): a transaction recorded
strictly before the warmup boundary increments the raw total only and leaves
the post-warmup counter, start time and TPS untouched; a transaction at or
after the boundary increments both counters. -/
theorem warmup_partition_amended (c : PerfCounter) (w t : ℚ)
    (hw : c.warmupEndTime = some w) (h0 : w ≠ 0) :
    (t < w →
      (recordTransaction t c).totalTransactions = c.totalTransactions + 1 ∧
      (recordTransaction t c).postWarmupTransactions = c.postWarmupTransactions ∧
      ∀ nowT, postWarmupTps nowT (recordTransaction t c) = postWarmupTps nowT c) ∧
    (w ≤ t →
      (recordTransaction t c).totalTransactions = c.totalTransactions + 1 ∧
      (recordTransaction t c).postWarmupTransactions =
        c.postWarmupTransactions + 1) := by
  constructor
  · intro hlt
    have hcond : ¬(w ≠ 0 ∧ w ≤ t) := fun hcontra =>
      absurd hcontra.2 (not_le.2 hlt)
    simp only [recordTransaction, hw]
    rw [if_neg hcond]
    exact ⟨rfl, rfl, fun nowT => rfl⟩
  · intro hge
    simp only [recordTransaction, hw]
    rw [if_pos ⟨h0, hge⟩]
    exact ⟨rfl, rfl⟩

/-- Counterexample to C4 as stated: with the boundary timestamp configured
as 0, a transaction at time 5 ≥ 0 is still not counted post-warmup, because
the line 263 guard `if self.warmup_end_time and ...` treats the float 0.0 as
falsy. -/
theorem warmup_zero_boundary_ctrex :
    c4ZeroBoundary.warmupEndTime = some 0 ∧
    (0 : ℚ) ≤ 5 ∧
    (recordTransaction 5 c4ZeroBoundary).totalTransactions = 1 ∧
    (recordTransaction 5 c4ZeroBoundary).postWarmupTransactions = 0 := by
  refine ⟨rfl, by norm_num, ?_, ?_⟩ <;>
    simp [recordTransaction, c4ZeroBoundary]

/-- Witness for warmup_partition_amended: boundary 10, transactions at times
3 and 12. -/
theorem warmup_partition_amended_w :
    (recordTransaction 3 c4BoundaryTen).postWarmupTransactions =
      c4BoundaryTen.postWarmupTransactions ∧
    (recordTransaction 12 c4BoundaryTen).postWarmupTransactions =
      c4BoundaryTen.postWarmupTransactions + 1 :=
  ⟨((warmup_partition_amended c4BoundaryTen 10 3 rfl (by norm_num)).1
      (by norm_num)).2.1,
   ((warmup_partition_amended c4BoundaryTen 10 12 rfl (by norm_num)).2
      (by norm_num)).2⟩

/-! Sorted-buffer lemmas and C5. -/

lemma getD_last_mem {l : List ℚ} (hne : l ≠ []) :
    l.getD (l.length - 1) 0 ∈ l := by
  have hlt : l.length - 1 < l.length := by
    cases l with
    | nil => exact absurd rfl hne
    | cons a r => simp
  rw [List.getD_eq_getElem l 0 hlt]
  exact l.getElem_mem hlt

lemma sorted_le_getD_last :
    ∀ {l : List ℚ}, List.Sorted (· ≤ ·) l →
      ∀ x ∈ l, x ≤ l.getD (l.length - 1) 0 := by
  intro l
  induction l with
  | nil => simp
  | cons a rest ih =>
    intro hs x hx
    cases rest with
    | nil =>
      simp only [List.mem_singleton] at hx
      subst hx
      simp [List.getD]
    | cons b rest2 =>
      have hs2 : List.Sorted (· ≤ ·) (b :: rest2) := hs.of_cons
      have hgd : (a :: b :: rest2).getD ((a :: b :: rest2).length - 1) 0 =
          (b :: rest2).getD ((b :: rest2).length - 1) 0 := by
        simp [List.getD]
      rw [hgd]
      rcases List.mem_cons.1 hx with hx | hx
      · subst hx
        have hmem := getD_last_mem (l := b :: rest2) (by simp)
        exact List.rel_of_sorted_cons hs _ hmem
      · exact ih hs2 x hx

/-- C5: for a non-empty latency buffer of size n, the reported p50 is the
sorted sample at index floor(n * 0.50); p95 is the sorted sample at index
floor(n * 0.95) when n > 20 and otherwise the maximum observed sample; p99
likewise with floor(n * 0.99) and the n ≤ 100 fallback; all indices are in
range, and for the empty buffer every reported statistic is 0. -/
theorem latency_percentile_selection (l : List ℚ) (hne : l ≠ []) :
    ((getLatencyStats l).p50 =
        (l.insertionSort (· ≤ ·)).getD (l.length * 50 / 100) 0 ∧
      l.length * 50 / 100 < l.length) ∧
    (20 < l.length →
      (getLatencyStats l).p95 =
        (l.insertionSort (· ≤ ·)).getD (l.length * 95 / 100) 0 ∧
      l.length * 95 / 100 < l.length) ∧
    (l.length ≤ 20 →
      (getLatencyStats l).p95 ∈ l ∧ ∀ x ∈ l, x ≤ (getLatencyStats l).p95) ∧
    (100 < l.length →
      (getLatencyStats l).p99 =
        (l.insertionSort (· ≤ ·)).getD (l.length * 99 / 100) 0 ∧
      l.length * 99 / 100 < l.length) ∧
    (l.length ≤ 100 →
      (getLatencyStats l).p99 ∈ l ∧ ∀ x ∈ l, x ≤ (getLatencyStats l).p99) ∧
    getLatencyStats [] = ⟨0, 0, 0, 0, 0, 0⟩ := by
  obtain ⟨a, rest, rfl⟩ := List.exists_cons_of_ne_nil hne
  have hpos : 0 < (a :: rest).length := by simp
  have hlen : ((a :: rest).insertionSort (· ≤ ·)).length = (a :: rest).length :=
    List.length_insertionSort _ _
  have hsort : List.Sorted (· ≤ ·) ((a :: rest).insertionSort (· ≤ ·)) :=
    List.sorted_insertionSort _ _
  have hperm : ((a :: rest).insertionSort (· ≤ ·)).Perm (a :: rest) :=
    List.perm_insertionSort _ _
  have hsne : (a :: rest).insertionSort (· ≤ ·) ≠ [] := by
    intro h
    rw [h] at hlen
    simp at hlen
  have hmax_mem : ((a :: rest).insertionSort (· ≤ ·)).getD
      ((a :: rest).length - 1) 0 ∈ (a :: rest) := by
    rw [← hlen]
    exact hperm.mem_iff.1 (getD_last_mem hsne)
  have hmax_ub : ∀ x ∈ (a :: rest),
      x ≤ ((a :: rest).insertionSort (· ≤ ·)).getD ((a :: rest).length - 1) 0 := by
    intro x hx
    rw [← hlen]
    exact sorted_le_getD_last hsort x (hperm.mem_iff.2 hx)
  refine ⟨⟨?_, ?_⟩, ?_, ?_, ?_, ?_, rfl⟩
  · simp only [getLatencyStats]
  · omega
  · intro h20
    constructor
    · simp only [getLatencyStats]
      rw [if_pos h20]
    · omega
  · intro h20
    have : ¬(20 < (a :: rest).length) := by omega
    constructor
    · simp only [getLatencyStats]
      rw [if_neg this]
      exact hmax_mem
    · intro x hx
      simp only [getLatencyStats]
      rw [if_neg this]
      exact hmax_ub x hx
  · intro h100
    constructor
    · simp only [getLatencyStats]
      rw [if_pos h100]
    · omega
  · intro h100
    have : ¬(100 < (a :: rest).length) := by omega
    constructor
    · simp only [getLatencyStats]
      rw [if_neg this]
      exact hmax_mem
    · intro x hx
      simp only [getLatencyStats]
      rw [if_neg this]
      exact hmax_ub x hx

/-- Witness for latency_percentile_selection at the buffer [3, 1, 2]. -/
theorem latency_percentile_selection_w :
    (getLatencyStats [3, 1, 2]).p50 =
        (([3, 1, 2] : List ℚ).insertionSort (· ≤ ·)).getD (3 * 50 / 100) 0 ∧
    (getLatencyStats [3, 1, 2]).p95 ∈ ([3, 1, 2] : List ℚ) :=
  ⟨(latency_percentile_selection [3, 1, 2] (by decide)).1.1,
   ((latency_percentile_selection [3, 1, 2] (by decide)).2.2.1 (by decide)).1⟩

/-- C6: mixed-mode dispatch partitions the unit interval by the fixed
thresholds 0.60 / 0.80 / 0.95: a single uniform draw r in [0, 1) selects
insert exactly when r < 0.60, select exactly when 0.60 ≤ r < 0.80, update
exactly when 0.80 ≤ r < 0.95 and delete exactly when r ≥ 0.95, which is the
60/20/15/5 weighting of the interval. -/
theorem mixed_dispatch_thresholds (r : ℚ) (hr0 : 0 ≤ r) (h1 : r < 1) :
    (executeMixed r = .insertK ↔ r < 60 / 100) ∧
    (executeMixed r = .selectK ↔ (60 / 100 ≤ r ∧ r < 80 / 100)) ∧
    (executeMixed r = .updateK ↔ (80 / 100 ≤ r ∧ r < 95 / 100)) ∧
    (executeMixed r = .deleteK ↔ 95 / 100 ≤ r) := by
  unfold executeMixed
  split_ifs with ha hb hc
  · exact ⟨⟨fun _ => ha, fun _ => rfl⟩,
      ⟨fun h => (by cases h), fun h => absurd h.1 (not_le.2 ha)⟩,
      ⟨fun h => (by cases h),
        fun h => absurd h.1 (not_le.2 (by linarith))⟩,
      ⟨fun h => (by cases h),
        fun h => absurd h (not_le.2 (by linarith))⟩⟩
  · have ha2 : 60 / 100 ≤ r := not_lt.1 ha
    exact ⟨⟨fun h => (by cases h), fun h => absurd h (not_lt.2 ha2)⟩,
      ⟨fun _ => ⟨ha2, hb⟩, fun _ => rfl⟩,
      ⟨fun h => (by cases h),
        fun h => absurd h.1 (not_le.2 (by linarith))⟩,
      ⟨fun h => (by cases h),
        fun h => absurd h (not_le.2 (by linarith))⟩⟩
  · have hb2 : 80 / 100 ≤ r := not_lt.1 hb
    exact ⟨⟨fun h => (by cases h),
        fun h => absurd h (not_lt.2 (by linarith))⟩,
      ⟨fun h => (by cases h), fun h => absurd h.2 (not_lt.2 hb2)⟩,
      ⟨fun _ => ⟨hb2, hc⟩, fun _ => rfl⟩,
      ⟨fun h => (by cases h), fun h => absurd h (not_le.2 hc)⟩⟩
  · have hc2 : 95 / 100 ≤ r := not_lt.1 hc
    exact ⟨⟨fun h => (by cases h),
        fun h => absurd h (not_lt.2 (by linarith))⟩,
      ⟨fun h => (by cases h),
        fun h => absurd h.2 (not_lt.2 (by linarith))⟩,
      ⟨fun h => (by cases h),
        fun h => absurd h.2 (not_lt.2 (by linarith))⟩,
      ⟨fun _ => hc2, fun _ => rfl⟩⟩

/-- Witness for mixed_dispatch_thresholds: the draw 0.7 selects the select
operation. -/
theorem mixed_dispatch_thresholds_w :
    executeMixed (7 / 10) = MixedOp.selectK :=
  ((mixed_dispatch_thresholds (7 / 10) (by norm_num) (by norm_num)).2.1).mpr
    ⟨by norm_num, by norm_num⟩

/-! Worker-loop lemmas and C7. -/

lemma getD_all_none {rs : List (Option Bool)} (h : ∀ r ∈ rs, r = none) :
    ∀ (k : Nat), rs.getD k none = none := by
  induction rs with
  | nil => intro k; simp
  | cons a rest ih =>
    intro k
    cases k with
    | zero =>
      have := h a (by simp)
      simp [this]
    | succ k2 =>
      have := ih (fun r hr => h r (by simp [hr]))
      simpa using this k2

lemma gvc_all_none (b : Nat) {rs : List (Option Bool)}
    (h : ∀ r ∈ rs, r = none) :
    getValidConnection b rs =
      (false, min (min (b * 2) 5000 * 2) 5000, 0, 0, [b, min (b * 2) 5000]) := by
  unfold getValidConnection
  rw [gvcLoop, getD_all_none h 0]
  simp only [Option.isSome_none, if_pos (by omega : (0 : Nat) < 2)]
  rw [gvcLoop, getD_all_none h 1]
  simp only [Option.isSome_none, if_pos (by omega : (1 : Nat) < 2)]
  rw [gvcLoop, getD_all_none h 2]
  simp only [Option.isSome_none, if_neg (by omega : ¬((2 : Nat) < 2))]
  rw [gvcLoop, getD_all_none h 3]
  simp

/-- C7 (amended): in the worker loop, two consecutive operation failures on
a held connection discard it, count one connection recreate, sleep the
current backoff and double it capped at 5000ms; a successful iteration
resets the consecutive-error count and the backoff to its 100ms base; but
two consecutive acquisition failures with an empty pool (get_connection
yields nothing) apply and double the backoff without discarding anything
and without touching the recreate counter — no connection is held there. -/
theorem worker_failure_escalation_amended :
    (∀ st : WorkerState, st.connHeld = true → st.consecutiveErrors = 0 →
      (workerStep st (.heldStep false)).connHeld = true ∧
      (workerStep st (.heldStep false)).consecutiveErrors = 1 ∧
      (workerStep st (.heldStep false)).recreates = st.recreates ∧
      (workerStep st (.heldStep false)).discards = st.discards ∧
      (workerStep (workerStep st (.heldStep false)) (.heldStep false)).connHeld
          = false ∧
      (workerStep (workerStep st (.heldStep false)) (.heldStep false)).discards
          = st.discards + 1 ∧
      (workerStep (workerStep st (.heldStep false)) (.heldStep false)).recreates
          = st.recreates + 1 ∧
      (workerStep (workerStep st (.heldStep false)) (.heldStep false)).sleeps
          = st.sleeps ++ [st.backoffMs] ∧
      (workerStep (workerStep st (.heldStep false)) (.heldStep false)).backoffMs
          = min (st.backoffMs * 2) 5000) ∧
    (∀ st : WorkerState,
      (workerStep st (.heldStep true)).consecutiveErrors = 0 ∧
      (workerStep st (.heldStep true)).backoffMs = 100) ∧
    (∀ (st : WorkerState) (rs : List (Option Bool)) (s : Bool),
      st.connHeld = false → st.consecutiveErrors = 1 → (∀ r ∈ rs, r = none) →
      (workerStep st (.acqStep rs s)).connHeld = false ∧
      (workerStep st (.acqStep rs s)).recreates = st.recreates ∧
      (workerStep st (.acqStep rs s)).discards = st.discards ∧
      (workerStep st (.acqStep rs s)).consecutiveErrors = 2 ∧
      (workerStep st (.acqStep rs s)).sleeps =
        st.sleeps ++ [st.backoffMs, min (st.backoffMs * 2) 5000,
          min (min (st.backoffMs * 2) 5000 * 2) 5000] ∧
      (workerStep st (.acqStep rs s)).backoffMs =
        min (min (min (st.backoffMs * 2) 5000 * 2) 5000 * 2) 5000) := by
  refine ⟨?_, ?_, ?_⟩
  · intro st hheld h0
    simp [workerStep, opResultHandle, h0, hheld]
  · intro st
    simp [workerStep, opResultHandle]
  · intro st rs s hconn h1 hrs
    have hg := gvc_all_none st.backoffMs hrs
    simp [workerStep, hg, h1, hconn]

/-- Witness for worker_failure_escalation_amended at the initial worker
state (backoff 100ms). -/
theorem worker_failure_escalation_amended_w :
    (workerStep (workerStep
        { mkWorkerState with connHeld := true } (.heldStep false))
        (.heldStep false)).recreates =
      ({ mkWorkerState with connHeld := true } : WorkerState).recreates + 1 ∧
    (workerStep mkWorkerState (.heldStep true)).backoffMs = 100 ∧
    (workerStep { mkWorkerState with consecutiveErrors := 1 }
        (.acqStep [none, none, none, none] false)).recreates =
      ({ mkWorkerState with consecutiveErrors := 1 } : WorkerState).recreates :=
  ⟨(worker_failure_escalation_amended.1 { mkWorkerState with connHeld := true }
      (by decide) (by decide)).2.2.2.2.2.2.1,
   (worker_failure_escalation_amended.2.1 mkWorkerState).2,
   (worker_failure_escalation_amended.2.2
      { mkWorkerState with consecutiveErrors := 1 }
      [none, none, none, none] false (by decide) (by decide) (by decide)).2.1⟩

/-- Counterexample to C7 as stated: two consecutive acquisition failures
(the pool yields no connection) leave the replacement counter untouched and
discard nothing — the escalation only applies the backoff, while the claim
asserts a discard and a counter increment for acquisition failures too. -/
theorem worker_acqfail_no_recreate_ctrex :
    (workerStep (workerStep mkWorkerState (.acqStep [none, none, none, none] false))
        (.acqStep [none, none, none, none] false)).recreates = 0 ∧
    (workerStep (workerStep mkWorkerState (.acqStep [none, none, none, none] false))
        (.acqStep [none, none, none, none] false)).discards = 0 ∧
    (workerStep (workerStep mkWorkerState (.acqStep [none, none, none, none] false))
        (.acqStep [none, none, none, none] false)).consecutiveErrors = 2 ∧
    (workerStep (workerStep mkWorkerState (.acqStep [none, none, none, none] false))
        (.acqStep [none, none, none, none] false)).connHeld = false := by
  decide

end MultiDbLoad
